import Mathlib

/-!
Shallow embedding of the ohms-coordinator canister (Rust) in Lean 4, together
with proofs of the specification claims about its routing, deduplication,
instruction-analysis and quota subsystems.

Conventions of the embedding:
* `HashMap<String, V>` becomes an association list `List (String × V)`, with
  `alookup` / `ainsert` / `aremove` modelling `get` / `insert` / `remove`.
* `u32`/`u64` counters and nanosecond timestamps become `Nat`; Rust saturating
  subtraction on unsigned integers coincides with `Nat` subtraction.
* `f32`/`f64` scores are modelled over `ℚ` (exact arithmetic; the source only
  adds, multiplies and divides bounded quantities).
* `ic_cdk::api::time()` is threaded explicitly as a `Nat` argument.
* Cross-canister RPCs (inference calls, economics calls) are modelled as
  explicit outcome parameters ("oracles"): the coordinator-side logic under
  verification is a pure function of those outcomes.
-/

namespace Ohms

/-- Lookup in an association list; models `HashMap::get` for string keys. -/
def alookup {V : Type} : List (String × V) → String → Option V
  | [], _ => none
  | (k2, v) :: rest, k => if k2 = k then some v else alookup rest k

/-- Key removal; models `HashMap::remove`. -/
def aremove {V : Type} (m : List (String × V)) (k : String) : List (String × V) :=
  m.filter (fun p => p.1 ≠ k)

/-- Key insert-or-replace; models `HashMap::insert`. -/
def ainsert {V : Type} (m : List (String × V)) (k : String) (v : V) : List (String × V) :=
  (k, v) :: aremove m k

/-- Key membership; models `HashMap::contains_key`. -/
def acontains {V : Type} (m : List (String × V)) (k : String) : Bool :=
  (alookup m k).isSome

/-- The key set of a HashMap has no duplicates; this predicate carries that
invariant over to the association-list model. -/
@[reducible] def KeysNodup {V : Type} (m : List (String × V)) : Prop :=
  (m.map Prod.fst).Nodup

end Ohms

namespace Ohms

/-! ## Domain types (src/domain/mod.rs) -/

/-- Rust `AgentRegistration` (src/domain/mod.rs). -/
structure AgentRegistration where
  agent_id : String
  agent_principal : String
  canister_id : String
  capabilities : List String
  model_id : String
  health_score : ℚ
  registered_at : Nat
  last_seen : Nat
deriving DecidableEq, Repr

/-- Rust `RoutingMode` (src/domain/mod.rs). -/
inductive RoutingMode where
  | Unicast
  | Broadcast
  | Competition
deriving DecidableEq, Repr

/-- Rust `RouteRequest` (src/domain/mod.rs); the payload bytes are `Nat`s below 256. -/
structure RouteRequest where
  request_id : String
  requester : String
  capabilities_required : List String
  payload : List Nat
  routing_mode : RoutingMode
deriving DecidableEq, Repr

/-- Rust `RouteResponse` (src/domain/mod.rs). -/
structure RouteResponse where
  request_id : String
  selected_agents : List String
  routing_time_ms : Nat
  selection_criteria : String
deriving DecidableEq, Repr

/-- Rust `DedupEntry` (src/domain/mod.rs). -/
structure DedupEntry where
  msg_id : String
  processed_at : Nat
  result_hash : String
  ttl_expires_at : Nat
deriving DecidableEq, Repr

/-- Rust `RoutingStats` (src/domain/mod.rs); the capability map becomes an association list. -/
structure RoutingStats where
  agent_id : String
  total_requests : Nat
  success_rate : ℚ
  average_response_time_ms : ℚ
  capability_scores : List (String × ℚ)
deriving DecidableEq, Repr

/-- Rust `VerifierEvidence` (src/domain/mod.rs). -/
structure VerifierEvidence where
  passed : Bool
  details : String
deriving DecidableEq, Repr

/-! ## Quota types (src/services/quota_manager.rs) -/

/-- Rust `InferenceRate` (src/services/quota_manager.rs). -/
inductive InferenceRate where
  | Standard
  | Priority
  | Premium
deriving DecidableEq, Repr

/-- Rust `QuotaLimits` (src/services/quota_manager.rs). -/
structure QuotaLimits where
  max_agents : Nat
  monthly_agent_creations : Nat
  token_limit : Nat
  inference_rate : InferenceRate
deriving DecidableEq, Repr

/-- Rust `QuotaUsage` (src/services/quota_manager.rs). -/
structure QuotaUsage where
  agents_created_this_month : Nat
  tokens_used_this_month : Nat
  inferences_this_month : Nat
  last_reset_date : Nat
deriving DecidableEq, Repr

/-- Rust `UserQuota` (src/services/quota_manager.rs). -/
structure UserQuota where
  principal_id : String
  subscription_tier : String
  current_usage : QuotaUsage
  limits : QuotaLimits
  last_updated : Nat
deriving DecidableEq, Repr

/-- Rust `QuotaRemaining` (src/services/quota_manager.rs). -/
structure QuotaRemaining where
  agents_remaining : Nat
  tokens_remaining : Nat
  inferences_remaining : Nat
deriving DecidableEq, Repr

/-- Rust `QuotaValidation` (src/services/quota_manager.rs). -/
structure QuotaValidation where
  allowed : Bool
  reason : Option String
  remaining_quota : Option QuotaRemaining
deriving DecidableEq, Repr

/-- Rust `QuotaAction` (src/services/quota_manager.rs). -/
inductive QuotaAction where
  | AgentCreation
  | TokenUsage
  | Inference
deriving DecidableEq, Repr

/-- Rust `QuotaCheckResult` (field shape taken from `check_user_quotas` in
src/services/instruction_analyzer.rs: availability flag, remaining agents,
monthly limit, tier name). -/
structure QuotaCheckResult where
  quota_available : Bool
  remaining_agents : Nat
  monthly_limit : Nat
  tier : String
deriving DecidableEq, Repr

/-- Rust `InstructionRequest` (persisted team-creation task, see api.rs). -/
structure InstructionRequest where
  request_id : String
  user_principal : String
  instructions : String
  agent_count : Option Nat
  model_preferences : List String
  created_at : Nat
deriving DecidableEq, Repr

/-- Rust `AgentCreationStatus` values used by stored creation results. -/
inductive AgentCreationStatus where
  | InProgress
  | Completed
  | Failed
  | QuotaExceeded
deriving DecidableEq, Repr

/-- Rust `AgentCreationResult` (stored per creation request). -/
structure AgentCreationResult where
  request_id : String
  created_agents : List String
  creation_time_ms : Nat
  status : AgentCreationStatus
deriving DecidableEq, Repr

/-- Rust `CoordinatorMetrics` (src/services/mod.rs). -/
structure CoordinatorMetrics where
  total_routes : Nat
  total_agent_creations : Nat
  total_agents : Nat
  average_routing_time_ms : ℚ
  last_activity : Nat
deriving DecidableEq, Repr

/-- Rust `CoordinatorState` (src/services/mod.rs). The autonomous-coordination
fields (`coordination_sessions`, `agent_capability_profiles`,
`agent_message_queues`) and `config` are never read or written by the
operations modelled here and are omitted from the embedding. -/
structure CoordinatorState where
  agents : List (String × AgentRegistration)
  instruction_requests : List (String × InstructionRequest)
  agent_creation_results : List (String × AgentCreationResult)
  dedup_cache : List (String × DedupEntry)
  routing_stats : List (String × RoutingStats)
  user_quotas : List (String × UserQuota)
  metrics : CoordinatorMetrics
deriving DecidableEq, Repr

end Ohms

namespace Ohms

/-! ## Dedup cache (src/services/dedup.rs) -/

namespace DedupService

/-- `DedupService::TTL_DURATION`: 24 hours in nanoseconds. -/
def TTL_DURATION : Nat := 24 * 60 * 60 * 1000000000

/-- `DedupService::is_duplicate`: sweep every expired entry
(`ttl_expires_at ≤ now`), then report presence of `msg_id`. Returns the
presence flag together with the swept cache (the Rust body mutates the
cache in place). -/
def is_duplicate (now : Nat) (msg_id : String) (cache : List (String × DedupEntry)) :
    Bool × List (String × DedupEntry) :=
  let cache' := cache.filter (fun p => now < p.2.ttl_expires_at)
  (acontains cache' msg_id, cache')

/-- `DedupService::record_request`. The Rust body computes
`result_hash = hash_response(response)` with SHA-256 and base64; the hash
function is threaded as the explicit parameter `hash_response` because the
hash value never influences the verified control flow. -/
def record_request (hash_response : RouteResponse → String) (now : Nat)
    (msg_id : String) (response : RouteResponse)
    (cache : List (String × DedupEntry)) : List (String × DedupEntry) :=
  ainsert cache msg_id
    { msg_id := msg_id
      processed_at := now
      result_hash := hash_response response
      ttl_expires_at := now + TTL_DURATION }

/-- `DedupService::get_cached_result`: lookup filtered by liveness
(`ttl_expires_at > now`). -/
def get_cached_result (now : Nat) (msg_id : String)
    (cache : List (String × DedupEntry)) : Option String :=
  ((alookup cache msg_id).filter (fun entry => now < entry.ttl_expires_at)).map
    (fun entry => entry.result_hash)

end DedupService

/-! ## Guards (src/infra/guards.rs) -/

/-- Translation of Rust `char::is_alphanumeric` (true on Unicode Alphabetic and
on the numeric categories Nd, Nl, No). The full Unicode tables are not
reproduced: this definition is exact on the code points U+0000 through U+00FF
(ASCII plus the Latin-1 supplement, where the alphabetic characters are
U+00AA, U+00B5, U+00BA and U+00C0..U+00FF minus the two operators U+00D7 and
U+00F7, and the numeric characters are U+00B2, U+00B3, U+00B9 and
U+00BC..U+00BE). The theorems quantifying over characters restrict
themselves to this range. -/
def rustIsAlphanumeric (c : Char) : Bool :=
  let n := c.toNat
  if n < 128 then c.isAlphanum
  else if n ≤ 255 then
    n == 0xAA || n == 0xB5 || n == 0xBA || n == 0xB2 || n == 0xB3 || n == 0xB9 ||
    (0xBC ≤ n && n ≤ 0xBE) || (0xC0 ≤ n && n != 0xD7 && n != 0xF7)
  else false

namespace Guards

/-- `Guards::validate_msg_id` (src/infra/guards.rs). Rust `str::len` is the
UTF-8 byte length, modelled by `String.utf8ByteSize`; `str::chars` iterates
the characters, modelled by `String.toList`. -/
def validate_msg_id (msg_id : String) : Except String Unit :=
  if msg_id.utf8ByteSize = 0 ∨ 64 < msg_id.utf8ByteSize then
    .error "Invalid msg_id format"
  else if ¬ (msg_id.toList.all fun c => rustIsAlphanumeric c || c == '_' || c == '-') then
    .error "msg_id contains invalid characters"
  else
    .ok ()

end Guards

end Ohms

namespace Ohms

/-! ## Registry reads used by routing (src/services/registry.rs) -/

namespace RegistryService

/-- `RegistryService::get_healthy_agents`: agents with `health_score >= min_health`.
HashMap value iteration is modelled by the association-list value order. -/
def get_healthy_agents (min_health : ℚ) (s : CoordinatorState) : List AgentRegistration :=
  (s.agents.map Prod.snd).filter (fun agent => min_health ≤ agent.health_score)

end RegistryService

/-! ## Routing engine (src/services/routing.rs) -/

namespace RoutingService

/-- `RoutingService::get_capable_agents`: healthy agents (threshold 0.1) having
at least one of the required capabilities. -/
def get_capable_agents (capabilities : List String) (s : CoordinatorState) : List AgentRegistration :=
  (RegistryService.get_healthy_agents (1/10) s).filter
    (fun agent => capabilities.any (fun cap => decide (cap ∈ agent.capabilities)))

/-- `RoutingService::calculate_agent_score`:
`0.6 * health + 0.4 * (Σ indicator(required cap present)) / max(|required|, 1)`. -/
def calculate_agent_score (agent : AgentRegistration) (required_capabilities : List String) : ℚ :=
  let health_weight : ℚ := 6/10
  let capability_weight : ℚ := 4/10
  let health_score := agent.health_score
  let capability_score :=
    (required_capabilities.map
      (fun cap => if cap ∈ agent.capabilities then (1 : ℚ) else 0)).sum /
      (max required_capabilities.length 1 : ℚ)
  health_weight * health_score + capability_weight * capability_score

/-- `Iterator::max_by` semantics: the last element attaining the maximum
score wins ties, as in the Rust documentation. -/
def maxByScoreLast (capabilities : List String) (head : AgentRegistration)
    (rest : List AgentRegistration) : AgentRegistration :=
  rest.foldl
    (fun best a =>
      if calculate_agent_score a capabilities < calculate_agent_score best capabilities
      then best else a)
    head

/-- `RoutingService::select_best_agent`. -/
def select_best_agent (capabilities : List String) (s : CoordinatorState) :
    Except String (List AgentRegistration) :=
  match get_capable_agents capabilities s with
  | [] => .error "No agents available with required capabilities"
  | c :: cs => .ok [maxByScoreLast capabilities c cs]

/-- Insertion step of a stable descending sort by score; models the stable
`Vec::sort_by` with comparator `score_b.partial_cmp(&score_a)`. -/
def insertByScoreDesc (capabilities : List String) (a : AgentRegistration) :
    List AgentRegistration → List AgentRegistration
  | [] => [a]
  | b :: bs =>
    if calculate_agent_score b capabilities ≤ calculate_agent_score a capabilities
    then a :: b :: bs
    else b :: insertByScoreDesc capabilities a bs

/-- Stable descending sort by score (insertion sort): an earlier element keeps
its place among equal scores, matching Rust's stable `sort_by`. -/
def sortByScoreDesc (capabilities : List String) : List AgentRegistration → List AgentRegistration
  | [] => []
  | a :: as_ => insertByScoreDesc capabilities a (sortByScoreDesc capabilities as_)

/-- `RoutingService::select_multiple_agents`: sort by score descending, take top `k`. -/
def select_multiple_agents (capabilities : List String) (k : Nat) (s : CoordinatorState) :
    Except String (List AgentRegistration) :=
  match get_capable_agents capabilities s with
  | [] => .error "No agents available with required capabilities"
  | c :: cs => .ok ((sortByScoreDesc capabilities (c :: cs)).take k)

/-- `RoutingService::select_competitive_agents`: sort by score descending, take
up to `max_agents`. -/
def select_competitive_agents (capabilities : List String) (max_agents : Nat)
    (s : CoordinatorState) : Except String (List AgentRegistration) :=
  match get_capable_agents capabilities s with
  | [] => .error "No agents available for competition"
  | c :: cs => .ok ((sortByScoreDesc capabilities (c :: cs)).take max_agents)

/-- The mode dispatch of `route_request` (the `match request.routing_mode`
block selecting agents per mode). -/
def route_selection (mode : RoutingMode) (capabilities : List String)
    (s : CoordinatorState) : Except String (List AgentRegistration) :=
  match mode with
  | .Unicast => select_best_agent capabilities s
  | .Broadcast => select_multiple_agents capabilities 3 s
  | .Competition => select_competitive_agents capabilities 5 s

/-- Debug rendering of a routing mode, as used by `format!("Selected by {:?} routing", ..)`. -/
def modeDebug : RoutingMode → String
  | .Unicast => "Unicast"
  | .Broadcast => "Broadcast"
  | .Competition => "Competition"

/-- `RoutingService::route_request`. `t0` is the `time()` read at entry
(start time and dedup sweep instant), `t1` the `time()` read after selection
(routing time, dedup record, metrics activity); on the IC both reads of one
message execution coincide. `hash_response` is the dedup hash function
(see `DedupService.record_request`). -/
def route_request (t0 t1 : Nat) (hash_response : RouteResponse → String)
    (request : RouteRequest) (s : CoordinatorState) :
    Except String RouteResponse × CoordinatorState :=
  let swept := DedupService.is_duplicate t0 request.request_id s.dedup_cache
  let s1 : CoordinatorState := { s with dedup_cache := swept.2 }
  if swept.1 then
    (.error "Duplicate request ID", s1)
  else
    match route_selection request.routing_mode request.capabilities_required s1 with
    | .error e => (.error e, s1)
    | .ok selected_agents =>
      let routing_time_ms := t1 - t0
      let response : RouteResponse :=
        { request_id := request.request_id
          selected_agents := selected_agents.map (fun a => a.agent_id)
          routing_time_ms := routing_time_ms
          selection_criteria := "Selected by " ++ modeDebug request.routing_mode ++ " routing" }
      let s2 : CoordinatorState :=
        { s1 with dedup_cache :=
            DedupService.record_request hash_response t1 request.request_id response s1.dedup_cache }
      let total_routes := s2.metrics.total_routes + 1
      let new_avg :=
        (s2.metrics.average_routing_time_ms * ((total_routes : ℚ) - 1)
          + (routing_time_ms : ℚ)) / (total_routes : ℚ)
      let s3 : CoordinatorState :=
        { s2 with metrics :=
            { s2.metrics with
                total_routes := total_routes
                average_routing_time_ms := new_avg
                last_activity := t1 } }
      (.ok response, s3)

end RoutingService

end Ohms

namespace Ohms

/-! ## Fan-out-best routing (src/services/routing.rs, `fanout_best_result`) -/

/-- Mirror of the agent canister's `AInferenceResponse` (src/services/routing.rs). -/
structure AInferenceResponse where
  tokens : List String
  generated_text : String
  inference_time_ms : Nat
  cache_hits : Nat
  cache_misses : Nat
deriving DecidableEq, Repr

namespace RoutingService

/-- `RoutingService::score_response`: length credit, token credit, cache bonus,
latency penalty. Rust `String::len` (UTF-8 bytes) is `String.utf8ByteSize`. -/
def score_response (resp : AInferenceResponse) (elapsed_ms : Nat) : ℚ :=
  let len_score := min ((resp.generated_text.utf8ByteSize : ℚ)) 1000 / 1000
  let tok_score := min ((resp.tokens.length : ℚ)) 256 / 256
  let latency_penalty := (elapsed_ms : ℚ) / 5000
  let cache_bonus :=
    if 0 < resp.cache_hits + resp.cache_misses then
      (resp.cache_hits : ℚ) / ((resp.cache_hits + resp.cache_misses : Nat) : ℚ) * (1/10)
    else 0
  (6/10) * len_score + (3/10) * tok_score + cache_bonus - (4/10) * latency_penalty

/-- `RoutingService::run_verifiers`: non-empty trimmed text; a text that starts
(after left-trim) with a brace must contain a colon. -/
def run_verifiers (resp : AInferenceResponse) : VerifierEvidence :=
  if resp.generated_text.trim.isEmpty then
    { passed := false, details := "empty output" }
  else if resp.generated_text.trimLeft.startsWith (String.singleton (Char.ofNat 123)) ∧
          ¬ resp.generated_text.contains ':' then
    { passed := false, details := "invalid json shape" }
  else
    { passed := true, details := "basic checks pass" }

/-- Outcome of one parallel fan-out branch, as accumulated by the source loop:
either a transport/agent error (the branch is skipped) or the triple
`(agent_id, elapsed, score)` where the score already includes the verifier
bonus. The inference RPC `call(pr, "infer", request)` is modelled by the
`oracle` argument mapping each dispatched agent to its transport outcome
(response and locally measured elapsed nanoseconds): the coordinator-side
arbitration logic is a pure function of these outcomes. -/
def fanout_branch (oracle : AgentRegistration → Except String (AInferenceResponse × Nat))
    (agent : AgentRegistration) : Except String (String × Nat × ℚ) :=
  match oracle agent with
  | .error e => .error e
  | .ok (resp, elapsed) =>
    let evidence := run_verifiers resp
    let score := score_response resp elapsed + if evidence.passed then 1/10 else 0
    .ok (agent.agent_id, elapsed, score)

/-- The arbitration loop of `fanout_best_result`: walk the joined results in
dispatch order, collecting the ids of successful branches and keeping the
best within-window triple (strictly greater score replaces, so the earliest
maximum is retained). -/
def fanout_arbitrate (window_ms : Nat) :
    List (Except String (String × Nat × ℚ)) → Option (String × Nat × ℚ) →
    Option (String × Nat × ℚ) × List String
  | [], best => (best, [])
  | r :: rs, best =>
    match r with
    | .error _ => fanout_arbitrate window_ms rs best
    | .ok (agent_id, elapsed, score) =>
      let best' :=
        if elapsed ≤ window_ms then
          match best with
          | none => some (agent_id, elapsed, score)
          | some (bid, belapsed, bscore) =>
            if bscore < score then some (agent_id, elapsed, score)
            else some (bid, belapsed, bscore)
        else best
      let rec_result := fanout_arbitrate window_ms rs best'
      (rec_result.1, agent_id :: rec_result.2)

/-- Winner prioritization `sort_by_key(|id| if id == winner then 0 else 1)`:
a stable sort by a boolean key is the stable partition putting the entries
equal to the winner first. -/
def reorderWinnerFirst (winner : String) (ids : List String) : List String :=
  ids.filter (fun id => id = winner) ++ ids.filter (fun id => id ≠ winner)

/-- `RoutingService::fanout_best_result`. `t0` is the `time()` read at entry,
`t1` the read after the parallel join (routing time and dedup record);
`hash_response` and `oracle` are as in `DedupService.record_request` and
`fanout_branch`. The derived seed, prompt and decode parameters sent to the
agents do not influence the coordinator-side logic and are absorbed by the
oracle. -/
def fanout_best_result (t0 t1 : Nat) (hash_response : RouteResponse → String)
    (oracle : AgentRegistration → Except String (AInferenceResponse × Nat))
    (request : RouteRequest) (k : Nat) (window_ms : Nat) (s : CoordinatorState) :
    Except String RouteResponse × CoordinatorState :=
  let cap_k := min k 3
  match select_multiple_agents request.capabilities_required cap_k s with
  | .error e => (.error e, s)
  | .ok agents =>
    if agents.isEmpty then (.error "No agents available", s)
    else
      let results := agents.map (fanout_branch oracle)
      let arb := fanout_arbitrate window_ms results none
      let best_agent := arb.1
      let selected_ids :=
        match best_agent with
        | some (winner_id, _, _) => reorderWinnerFirst winner_id arb.2
        | none => arb.2
      let response : RouteResponse :=
        { request_id := request.request_id
          selected_agents := selected_ids
          routing_time_ms := t1 - t0
          selection_criteria :=
            "fanout_top_k=" ++ toString cap_k ++ " window_ms=" ++ toString window_ms ++
              " winner=" ++ (match best_agent with
                             | some (winner_id, _, _) => winner_id
                             | none => "") }
      let s1 : CoordinatorState :=
        { s with dedup_cache :=
            DedupService.record_request hash_response t1 request.request_id response s.dedup_cache }
      (.ok response, s1)

end RoutingService

end Ohms

namespace Ohms

/-! ## Instruction analyzer (src/services/instruction_analyzer.rs) -/

/-- Substring test; models Rust `str::contains` for a string pattern. -/
def containsSub (hay needle : String) : Bool :=
  hay.toList.tails.any (fun t => needle.toList.isPrefixOf t)

/-- Translation of Rust `str::to_lowercase`. Exact on ASCII; the full Unicode
case mapping is not reproduced (all keywords in the pattern table are ASCII). -/
def rustToLowercase (s : String) : String :=
  String.mk (s.toList.map Char.toLower)

/-- Rust `ComplexityLevel` (src/services/instruction_analyzer.rs). -/
inductive ComplexityLevel where
  | Simple
  | Moderate
  | Complex
  | Enterprise
deriving DecidableEq, Repr

/-- Rust `CapabilityPattern` (src/services/instruction_analyzer.rs). -/
structure CapabilityPattern where
  keywords : List String
  capabilities : List String
  model_suggestions : List String
  specialization : String
deriving DecidableEq, Repr

/-- Rust `ParsedRequirements` (src/services/instruction_analyzer.rs). -/
structure ParsedRequirements where
  agent_count : Nat
  required_capabilities : List String
  model_requirements : List String
  specializations : List String
  coordination_needs : List String
  complexity_level : ComplexityLevel
deriving DecidableEq, Repr

namespace InstructionAnalyzerService

/-- `InstructionAnalyzerService::get_capability_patterns`: the fixed table. -/
def get_capability_patterns : List CapabilityPattern :=
  [ { keywords := ["code", "programming", "develop", "software", "application"]
      capabilities := ["coding", "software_development", "programming"]
      model_suggestions := ["code-llama", "starcoder", "wizardcoder"]
      specialization := "Software Developer" },
    { keywords := ["test", "testing", "qa", "quality", "verify"]
      capabilities := ["testing", "quality_assurance", "verification"]
      model_suggestions := ["code-llama", "starcoder"]
      specialization := "Test Engineer" },
    { keywords := ["review", "code review", "peer review"]
      capabilities := ["code_review", "quality_assurance", "best_practices"]
      model_suggestions := ["code-llama", "starcoder"]
      specialization := "Code Reviewer" },
    { keywords := ["write", "content", "article", "blog", "documentation"]
      capabilities := ["content_creation", "writing", "documentation"]
      model_suggestions := ["llama", "mistral", "gemma"]
      specialization := "Content Creator" },
    { keywords := ["marketing", "social media", "campaign", "promote"]
      capabilities := ["marketing", "social_media", "campaign_management"]
      model_suggestions := ["llama", "mistral"]
      specialization := "Marketing Specialist" },
    { keywords := ["analyze", "data", "analytics", "insights", "report"]
      capabilities := ["data_analysis", "analytics", "reporting"]
      model_suggestions := ["llama", "mistral", "gemma"]
      specialization := "Data Analyst" },
    { keywords := ["research", "investigate", "study", "explore"]
      capabilities := ["research", "investigation", "analysis"]
      model_suggestions := ["llama", "mistral", "gemma"]
      specialization := "Research Analyst" } ]

/-- `InstructionAnalyzerService::matches_pattern`: any keyword is a substring. -/
def matches_pattern (lowered : String) (keywords : List String) : Bool :=
  keywords.any (fun keyword => containsSub lowered keyword)

/-- `InstructionAnalyzerService::determine_agent_count`: base on the length of
the accumulated capability list, bump for team/multiple and
complex/comprehensive, cap at 10. -/
def determine_agent_count (lowered : String) (capabilities : List String) : Nat :=
  let capability_count := capabilities.length
  let base := max capability_count 1
  let bumped3 :=
    if containsSub lowered "team" || containsSub lowered "multiple" then max base 3 else base
  let bumped4 :=
    if containsSub lowered "complex" || containsSub lowered "comprehensive" then max bumped3 4
    else bumped3
  min bumped4 10

end InstructionAnalyzerService

end Ohms

namespace Ohms

namespace InstructionAnalyzerService

/-- `InstructionAnalyzerService::determine_coordination_needs`. -/
def determine_coordination_needs (lowered : String) (agent_count : Nat) : List String :=
  (if 1 < agent_count then ["inter_agent_communication"] else []) ++
  (if containsSub lowered "collaborate" || containsSub lowered "coordinate"
   then ["task_coordination"] else []) ++
  (if containsSub lowered "review" || containsSub lowered "approve"
   then ["workflow_approval"] else []) ++
  (if 3 < agent_count then ["load_balancing"] else [])

/-- `InstructionAnalyzerService::determine_complexity_level`. -/
def determine_complexity_level (agent_count : Nat) : ComplexityLevel :=
  if agent_count = 1 then .Simple
  else if 2 ≤ agent_count ∧ agent_count ≤ 3 then .Moderate
  else if 4 ≤ agent_count ∧ agent_count ≤ 6 then .Complex
  else .Enterprise

/-- `InstructionAnalyzerService::parse_instructions`. The source loop over the
pattern table appending to three accumulators is expressed as a filter over
the table followed by concatenations; the source function is infallible (it
always returns `Ok`), so the `Result` wrapper is dropped. -/
def parse_instructions (instructions_text : String) : ParsedRequirements :=
  let lowered := rustToLowercase instructions_text
  let matched := get_capability_patterns.filter (fun p => matches_pattern lowered p.keywords)
  let required_capabilities := (matched.map (fun p => p.capabilities)).flatten
  let model_requirements := (matched.map (fun p => p.model_suggestions)).flatten
  let specializations := matched.map (fun p => p.specialization)
  let agent_count := determine_agent_count lowered required_capabilities
  let coordination_needs := determine_coordination_needs lowered agent_count
  let complexity_level := determine_complexity_level agent_count
  { agent_count := agent_count
    required_capabilities := required_capabilities
    model_requirements := model_requirements
    specializations := specializations
    coordination_needs := coordination_needs
    complexity_level := complexity_level }

/-- Default Pro-tier quota created by `check_user_quotas` for a principal with
no stored record. -/
def defaultProQuota (now : Nat) (user_principal : String) : UserQuota :=
  { principal_id := user_principal
    subscription_tier := "Pro"
    limits :=
      { max_agents := 25
        monthly_agent_creations := 25
        token_limit := 4096
        inference_rate := .Priority }
    current_usage :=
      { agents_created_this_month := 0
        tokens_used_this_month := 0
        inferences_this_month := 0
        last_reset_date := now }
    last_updated := now }

/-- `InstructionAnalyzerService::check_user_quotas`: fetch the stored quota or
fall back to the Pro-tier default, compute availability against `max_agents`
(saturating subtraction) and the monthly creation limit, and store the quota
back. The source function is infallible (always `Ok`). -/
def check_user_quotas (now : Nat) (user_principal : String) (requested_agents : Nat)
    (user_quotas : List (String × UserQuota)) :
    QuotaCheckResult × List (String × UserQuota) :=
  let user_quota := (alookup user_quotas user_principal).getD (defaultProQuota now user_principal)
  let current_agents := user_quota.current_usage.agents_created_this_month
  let remaining_agents := user_quota.limits.max_agents - current_agents
  let quota_available :=
    decide (requested_agents ≤ remaining_agents) &&
      decide (current_agents < user_quota.limits.monthly_agent_creations)
  ({ quota_available := quota_available
     remaining_agents := remaining_agents
     monthly_limit := user_quota.limits.monthly_agent_creations
     tier := user_quota.subscription_tier },
   ainsert user_quotas user_principal user_quota)

end InstructionAnalyzerService

end Ohms

namespace Ohms

/-! ## Quota manager (src/services/quota_manager.rs) -/

namespace QuotaManager

/-- `QuotaManager::validate_agent_creation_quota`. -/
def validate_agent_creation_quota (user_quota : UserQuota) : QuotaValidation :=
  if user_quota.limits.monthly_agent_creations ≤ user_quota.current_usage.agents_created_this_month
  then
    { allowed := false
      reason := some "Monthly agent creation limit reached"
      remaining_quota := some
        { agents_remaining := 0
          tokens_remaining :=
            user_quota.limits.token_limit - user_quota.current_usage.tokens_used_this_month
          inferences_remaining := 0 } }
  else
    { allowed := true
      reason := none
      remaining_quota := some
        { agents_remaining :=
            user_quota.limits.monthly_agent_creations -
              user_quota.current_usage.agents_created_this_month
          tokens_remaining :=
            user_quota.limits.token_limit - user_quota.current_usage.tokens_used_this_month
          inferences_remaining := 0 } }

/-- `QuotaManager::validate_token_usage_quota`. -/
def validate_token_usage_quota (user_quota : UserQuota) (tokens_requested : Nat) : QuotaValidation :=
  let remaining_tokens :=
    user_quota.limits.token_limit - user_quota.current_usage.tokens_used_this_month
  let agents_remaining :=
    user_quota.limits.monthly_agent_creations -
      user_quota.current_usage.agents_created_this_month
  if remaining_tokens < tokens_requested then
    { allowed := false
      reason := some "Insufficient token quota"
      remaining_quota := some
        { agents_remaining := agents_remaining
          tokens_remaining := remaining_tokens
          inferences_remaining := 0 } }
  else
    { allowed := true
      reason := none
      remaining_quota := some
        { agents_remaining := agents_remaining
          tokens_remaining := remaining_tokens
          inferences_remaining := 0 } }

/-- `QuotaManager::validate_inference_quota` (currently always allowed). -/
def validate_inference_quota (user_quota : UserQuota) : QuotaValidation :=
  { allowed := true
    reason := none
    remaining_quota := some
      { agents_remaining :=
          user_quota.limits.monthly_agent_creations -
            user_quota.current_usage.agents_created_this_month
        tokens_remaining :=
          user_quota.limits.token_limit - user_quota.current_usage.tokens_used_this_month
        inferences_remaining := 0 } }

/-- `QuotaManager::reset_monthly_usage_if_needed`: zero the usage when more
than 30 days have passed since the last reset. -/
def reset_monthly_usage_if_needed (now : Nat) (user_quota : UserQuota) : UserQuota :=
  if 30 * 24 * 60 * 60 * 1000000000 < now - user_quota.current_usage.last_reset_date then
    { user_quota with current_usage :=
        { agents_created_this_month := 0
          tokens_used_this_month := 0
          inferences_this_month := 0
          last_reset_date := now } }
  else user_quota

/-- `QuotaManager::update_usage`. -/
def update_usage (now : Nat) (user_quota : UserQuota) (action : QuotaAction)
    (amount : Option Nat) : UserQuota :=
  let usage := user_quota.current_usage
  let usage' :=
    match action with
    | .AgentCreation =>
      { usage with agents_created_this_month := usage.agents_created_this_month + 1 }
    | .TokenUsage =>
      match amount with
      | some tokens => { usage with tokens_used_this_month := usage.tokens_used_this_month + tokens }
      | none => usage
    | .Inference =>
      { usage with inferences_this_month := usage.inferences_this_month + 1 }
  { user_quota with current_usage := usage', last_updated := now }

/-- `QuotaManager::validate_quota`: fetch the stored quota (error when
absent), apply the monthly reset, validate the action, and on success apply
the usage increment and store the result back. -/
def validate_quota (now : Nat) (principal_id : String) (action : QuotaAction)
    (amount : Option Nat) (user_quotas : List (String × UserQuota)) :
    Except String QuotaValidation × List (String × UserQuota) :=
  match alookup user_quotas principal_id with
  | none => (.error "No quota found for user", user_quotas)
  | some stored =>
    let user_quota := reset_monthly_usage_if_needed now stored
    let validation : Except String QuotaValidation :=
      match action with
      | .AgentCreation => .ok (validate_agent_creation_quota user_quota)
      | .TokenUsage =>
        match amount with
        | none => .error "Token amount required"
        | some tokens => .ok (validate_token_usage_quota user_quota tokens)
      | .Inference => .ok (validate_inference_quota user_quota)
    match validation with
    | .error e => (.error e, user_quotas)
    | .ok v =>
      if v.allowed then
        (.ok v, ainsert user_quotas principal_id (update_usage now user_quota action amount))
      else
        (.ok v, user_quotas)

end QuotaManager

end Ohms

namespace Ohms

/-! ## API endpoints (src/api.rs) -/

namespace Api

/-- `create_agents_from_instructions` (src/api.rs), restricted to the map of
stored `InstructionRequest`s — the only piece of coordinator state this
endpoint itself writes (the spawning service writes agents, creation results
and coordination sessions, never `instruction_requests`). The four awaited
collaborator calls are modelled by explicit outcome parameters, in source
order: the economics quota validation, the economics quota sync, the spawning
service (returning the spawned agent ids), and the economics creation
tracking (a function of the spawned count). `now` models `ic_cdk::api::time()`. -/
def create_agents_from_instructions
    (now : Nat) (caller : String) (instructions_text : String) (agent_count : Option Nat)
    (quota_outcome : Except String QuotaValidation)
    (sync_outcome : Except String Unit)
    (spawn_outcome : Except String (List String))
    (track_outcome : Nat → Except String Unit)
    (instruction_requests : List (String × InstructionRequest)) :
    Except String String × List (String × InstructionRequest) :=
  match quota_outcome with
  | .error e => (.error e, instruction_requests)
  | .ok quota_validation =>
    if ¬ quota_validation.allowed then
      (.error ("Quota exceeded: " ++ quota_validation.reason.getD "Unknown reason"),
       instruction_requests)
    else
      match sync_outcome with
      | .error e => (.error e, instruction_requests)
      | .ok _ =>
        let request_id := "req_" ++ toString now
        let instruction_request : InstructionRequest :=
          { request_id := request_id
            user_principal := caller
            instructions := instructions_text
            agent_count := agent_count
            model_preferences := []
            created_at := now }
        let stored := ainsert instruction_requests request_id instruction_request
        match spawn_outcome with
        | .ok spawned_agents =>
          match track_outcome spawned_agents.length with
          | .error e => (.error e, stored)
          | .ok _ => (.ok request_id, stored)
        | .error e =>
          (.error ("Failed to spawn agents: " ++ e), aremove stored request_id)

/-- The tier names accepted by `upgrade_subscription_tier`. -/
def valid_tiers : List String := ["Free", "Basic", "Pro", "Enterprise"]

/-- The tier-keyed limits table of `upgrade_subscription_tier` (src/api.rs). -/
def tier_limits (tier : String) (current : QuotaLimits) : QuotaLimits :=
  if tier = "Free" then
    { max_agents := 3, monthly_agent_creations := 5, token_limit := 1024,
      inference_rate := .Standard }
  else if tier = "Basic" then
    { max_agents := 10, monthly_agent_creations := 15, token_limit := 2048,
      inference_rate := .Standard }
  else if tier = "Pro" then
    { max_agents := 25, monthly_agent_creations := 25, token_limit := 4096,
      inference_rate := .Priority }
  else if tier = "Enterprise" then
    { max_agents := 100, monthly_agent_creations := 100, token_limit := 8192,
      inference_rate := .Premium }
  else current

/-- `upgrade_subscription_tier` (src/api.rs): reject invalid tier names, then
update the caller's stored quota in place if one exists (`get_mut`), leaving
the state untouched otherwise. The metrics counter bump
(`Metrics::increment_counter`) lives in the out-of-scope infra metrics module
and does not touch `CoordinatorState`. -/
def upgrade_subscription_tier (now : Nat) (caller tier : String) (s : CoordinatorState) :
    Except String Unit × CoordinatorState :=
  if ¬ (tier ∈ valid_tiers) then
    (.error "Invalid tier. Must be 'Free', 'Basic', 'Pro', or 'Enterprise'", s)
  else
    match alookup s.user_quotas caller with
    | none => (.ok (), s)
    | some quota =>
      let quota' :=
        { quota with
            subscription_tier := tier
            last_updated := now
            limits := tier_limits tier quota.limits }
      (.ok (), { s with user_quotas := ainsert s.user_quotas caller quota' })

end Api

end Ohms

namespace Ohms

/-- Decidable equality for `Except`, used to evaluate the embedded operations
on concrete inputs. -/
instance {ε α : Type} [DecidableEq ε] [DecidableEq α] : DecidableEq (Except ε α) := fun
  | .error e, .error e2 =>
    if h : e = e2 then .isTrue (by rw [h])
    else .isFalse (fun hc => h (by cases hc; rfl))
  | .error _, .ok _ => .isFalse (fun hc => Except.noConfusion hc)
  | .ok _, .error _ => .isFalse (fun hc => Except.noConfusion hc)
  | .ok a, .ok b =>
    if h : a = b then .isTrue (by rw [h])
    else .isFalse (fun hc => h (by cases hc; rfl))

end Ohms

namespace Ohms

/-! ## Spec-side comparison definitions and concrete fixtures -/

/-- The agent ids of the successful fan-out branches, in dispatch order. -/
def successIds (results : List (Except String (String × Nat × ℚ))) : List String :=
  results.filterMap (fun r =>
    match r with
    | .ok (agent_id, _, _) => some agent_id
    | .error _ => none)

/-- The character class `[A-Za-z0-9_-]` named by the specification's request-id
validation rule (spec §6.1). This is the claim's class, written for comparison
with the source's `rustIsAlphanumeric`-based acceptance. -/
def claimedAsciiClass (c : Char) : Bool :=
  c.isAlphanum || c == '_' || c == '-'

/-- The agent count claimed by the specification (spec §4.6 step 3): base
`max(1, number_of_matched_patterns)`, the same bumps for team/multiple and
complex/comprehensive, capped at 10. Written for comparison with the source's
`determine_agent_count`, whose base is the length of the accumulated
capability list. -/
def claimed_agent_count (instructions_text : String) : Nat :=
  let lowered := rustToLowercase instructions_text
  let matched_patterns :=
    InstructionAnalyzerService.get_capability_patterns.filter
      (fun p => InstructionAnalyzerService.matches_pattern lowered p.keywords)
  let base := max 1 matched_patterns.length
  let bumped3 :=
    if containsSub lowered "team" || containsSub lowered "multiple" then max base 3 else base
  let bumped4 :=
    if containsSub lowered "complex" || containsSub lowered "comprehensive" then max bumped3 4
    else bumped3
  min bumped4 10

/-- Fixture: a registered agent offering the `code` capability at full health. -/
def exAgent : AgentRegistration :=
  { agent_id := "a1", agent_principal := "p", canister_id := "c",
    capabilities := ["code"], model_id := "m", health_score := 1,
    registered_at := 0, last_seen := 0 }

/-- Fixture: a second agent with more capabilities and lower health. -/
def exAgentWeak : AgentRegistration :=
  { agent_id := "b1", agent_principal := "p", canister_id := "c",
    capabilities := ["code"], model_id := "m", health_score := 0,
    registered_at := 0, last_seen := 0 }

/-- Fixture: an agent dominating `exAgentWeak` (higher health, superset capabilities). -/
def exAgentStrong : AgentRegistration :=
  { agent_id := "b2", agent_principal := "p", canister_id := "c",
    capabilities := ["code", "test"], model_id := "m", health_score := 1,
    registered_at := 0, last_seen := 0 }

/-- Fixture: a live dedup entry for request id `r1` expiring at t=1000. -/
def exEntry : DedupEntry :=
  { msg_id := "r1", processed_at := 0, result_hash := "h", ttl_expires_at := 1000 }

/-- Fixture: an already expired dedup entry for request id `r2` (expired at t=5). -/
def exEntryExpired : DedupEntry :=
  { msg_id := "r2", processed_at := 0, result_hash := "h2", ttl_expires_at := 5 }

/-- Fixture: zeroed coordinator metrics. -/
def exMetrics : CoordinatorMetrics :=
  { total_routes := 0, total_agent_creations := 0, total_agents := 0,
    average_routing_time_ms := 0, last_activity := 0 }

/-- Fixture: a state holding `exAgent` and a live dedup entry for `r1`. -/
def exState : CoordinatorState :=
  { agents := [("a1", exAgent)], instruction_requests := [], agent_creation_results := [],
    dedup_cache := [("r1", exEntry)], routing_stats := [], user_quotas := [],
    metrics := exMetrics }

/-- Fixture: a state holding `exAgent` and an empty dedup cache. -/
def exStateFresh : CoordinatorState :=
  { agents := [("a1", exAgent)], instruction_requests := [], agent_creation_results := [],
    dedup_cache := [], routing_stats := [], user_quotas := [],
    metrics := exMetrics }

/-- Fixture: a unicast route request with id `r1` requiring `code`. -/
def exReq : RouteRequest :=
  { request_id := "r1", requester := "u", capabilities_required := ["code"],
    payload := [], routing_mode := .Unicast }

/-- Fixture: an inference oracle that always answers successfully in 10 ns. -/
def exOracle : AgentRegistration → Except String (AInferenceResponse × Nat) :=
  fun _ => .ok ({ tokens := ["t"], generated_text := "hello", inference_time_ms := 5,
                  cache_hits := 0, cache_misses := 0 }, 10)

/-- Fixture: a dedup hash function returning a constant placeholder. -/
def exHash : RouteResponse → String := fun _ => "hash"

/-- Fixture: a stored quota on a tier with monthly creation limit 5, of which
3 creations are used. -/
def exQuota : UserQuota :=
  { principal_id := "p", subscription_tier := "Basic",
    current_usage :=
      { agents_created_this_month := 3, tokens_used_this_month := 100,
        inferences_this_month := 0, last_reset_date := 50 },
    limits :=
      { max_agents := 10, monthly_agent_creations := 5, token_limit := 2048,
        inference_rate := .Standard },
    last_updated := 50 }

end Ohms

namespace Ohms

/-! ## Helper lemmas about the association-list model -/

@[simp] theorem alookup_nil {V : Type} (k : String) :
    alookup ([] : List (String × V)) k = none := rfl

@[simp] theorem alookup_cons {V : Type} (k2 : String) (v : V) (rest : List (String × V))
    (k : String) :
    alookup ((k2, v) :: rest) k = if k2 = k then some v else alookup rest k := rfl

theorem alookup_aremove {V : Type} (m : List (String × V)) (k k' : String) :
    alookup (aremove m k) k' = if k = k' then none else alookup m k' := by
  induction m with
  | nil => simp [aremove]
  | cons p rest ih =>
    obtain ⟨k2, v⟩ := p
    by_cases h2 : k2 = k
    · subst h2
      by_cases hkk : k2 = k'
      · subst hkk; simp [aremove] at ih ⊢; simpa [aremove] using ih
      · simp [aremove, hkk] at ih ⊢
        simpa [aremove, hkk] using ih
    · by_cases hkk : k2 = k'
      · subst hkk
        have : k ≠ k2 := fun h => h2 h.symm
        simp [aremove, h2, this]
      · simp [aremove, h2, hkk] at ih ⊢
        simpa [aremove, hkk] using ih

theorem alookup_ainsert_self {V : Type} (m : List (String × V)) (k : String) (v : V) :
    alookup (ainsert m k v) k = some v := by
  simp [ainsert]

theorem alookup_ainsert_ne {V : Type} (m : List (String × V)) (k k' : String) (v : V)
    (h : k ≠ k') : alookup (ainsert m k v) k' = alookup m k' := by
  simp [ainsert, h, alookup_aremove]

theorem alookup_eq_none_of_not_mem_keys {V : Type} (m : List (String × V)) (k : String)
    (h : k ∉ m.map Prod.fst) : alookup m k = none := by
  induction m with
  | nil => rfl
  | cons q rest ih =>
    obtain ⟨k2, v2⟩ := q
    simp only [List.map_cons, List.mem_cons] at h
    push_neg at h
    simp [Ne.symm h.1, ih h.2]

/-- Lookup after a filter, under the HashMap key-uniqueness invariant: the
(unique) entry survives exactly when it satisfies the predicate. -/
theorem alookup_filter {V : Type} (m : List (String × V)) (p : String × V → Bool) (k : String)
    (hnd : KeysNodup m) :
    alookup (m.filter p) k =
      (alookup m k).bind (fun v => if p (k, v) then some v else none) := by
  induction m with
  | nil => simp
  | cons q rest ih =>
    obtain ⟨k2, v2⟩ := q
    simp only [KeysNodup, List.map_cons, List.nodup_cons] at hnd
    by_cases hk : k2 = k
    · subst hk
      by_cases hp : p (k2, v2)
      · simp [hp]
      · have hnone : alookup (rest.filter p) k2 = none := by
          apply alookup_eq_none_of_not_mem_keys
          intro hmem
          exact hnd.1 (by
            rcases List.mem_map.mp hmem with ⟨q2, hq2, hfst⟩
            exact List.mem_map.mpr ⟨q2, List.mem_of_mem_filter hq2, hfst⟩)
        simp [hp, hnone]
    · by_cases hp : p (k2, v2) <;> simp [hp, hk, ih hnd.2]

theorem keysNodup_filter {V : Type} (m : List (String × V)) (p : String × V → Bool)
    (hnd : KeysNodup m) : KeysNodup (m.filter p) :=
  List.Nodup.sublist (List.Sublist.map Prod.fst (List.filter_sublist m)) hnd

theorem keysNodup_ainsert {V : Type} (m : List (String × V)) (k : String) (v : V)
    (hnd : KeysNodup m) : KeysNodup (ainsert m k v) := by
  refine List.nodup_cons.mpr ⟨?_, keysNodup_filter m _ hnd⟩
  intro hmem
  rcases List.mem_map.mp hmem with ⟨q, hq, hfst⟩
  have := List.of_mem_filter hq
  simp only [decide_eq_true_eq] at this
  exact this (by simpa using hfst)

end Ohms

namespace Ohms

/-! ## Claim C10 -/

/-- C10: for every valid tier name, `upgrade_subscription_tier` invoked by a
caller with no stored quota record returns `Ok` and leaves the user-quota map
and all other coordinator state unchanged: no quota row is created and no
error is reported. -/
theorem upgrade_tier_no_quota_row_is_noop (now : Nat) (caller tier : String)
    (s : CoordinatorState) (htier : tier ∈ Api.valid_tiers)
    (hnone : alookup s.user_quotas caller = none) :
    Api.upgrade_subscription_tier now caller tier s = (.ok (), s) := by
  unfold Api.upgrade_subscription_tier
  rw [if_neg (by simpa using htier), hnone]

/-- Witness for C10: upgrading to "Pro" on a state with no stored quota rows. -/
theorem upgrade_tier_no_quota_row_is_noop_witness :
    Api.upgrade_subscription_tier 7 "p" "Pro" exStateFresh = (.ok (), exStateFresh) :=
  upgrade_tier_no_quota_row_is_noop 7 "p" "Pro" exStateFresh (by decide) (by decide)

/-! ## Claim C8 -/

/-- C8: when `create_agents_from_instructions` has stored the
`InstructionRequest` (quota validation passed and the quota sync succeeded)
and the spawning step then fails, the stored request is removed before the
error is returned: the final map holds no entry for the generated request id
and is unchanged at every other key. -/
theorem create_agents_spawn_failure_rolls_back (now : Nat)
    (caller instructions_text : String) (agent_count : Option Nat)
    (qv : QuotaValidation) (track_outcome : Nat → Except String Unit)
    (reqs : List (String × InstructionRequest)) (e : String)
    (hallowed : qv.allowed = true) :
    (Api.create_agents_from_instructions now caller instructions_text agent_count
        (.ok qv) (.ok ()) (.error e) track_outcome reqs).1 =
      .error ("Failed to spawn agents: " ++ e)
    ∧ alookup (Api.create_agents_from_instructions now caller instructions_text agent_count
        (.ok qv) (.ok ()) (.error e) track_outcome reqs).2 ("req_" ++ toString now) = none
    ∧ ∀ k, k ≠ "req_" ++ toString now →
        alookup (Api.create_agents_from_instructions now caller instructions_text agent_count
          (.ok qv) (.ok ()) (.error e) track_outcome reqs).2 k = alookup reqs k := by
  unfold Api.create_agents_from_instructions
  constructor
  · simp [hallowed]
  constructor
  · simp [hallowed, alookup_aremove]
  · intro k hk
    simp [hallowed, alookup_aremove, Ne.symm hk, alookup_ainsert_ne _ _ _ _ (Ne.symm hk)]

end Ohms

namespace Ohms

/-- Witness for C8: a concrete failed spawning run rolls the stored request back. -/
theorem create_agents_spawn_failure_rolls_back_witness :
    (Api.create_agents_from_instructions 3 "p" "code" none
        (.ok { allowed := true, reason := none, remaining_quota := none }) (.ok ())
        (.error "boom") (fun _ => .ok ()) []).1 = .error ("Failed to spawn agents: " ++ "boom")
    ∧ alookup (Api.create_agents_from_instructions 3 "p" "code" none
        (.ok { allowed := true, reason := none, remaining_quota := none }) (.ok ())
        (.error "boom") (fun _ => .ok ()) []).2 ("req_" ++ toString 3) = none :=
  ⟨(create_agents_spawn_failure_rolls_back 3 "p" "code" none
      { allowed := true, reason := none, remaining_quota := none } (fun _ => .ok ()) [] "boom"
      rfl).1,
   (create_agents_spawn_failure_rolls_back 3 "p" "code" none
      { allowed := true, reason := none, remaining_quota := none } (fun _ => .ok ()) [] "boom"
      rfl).2.1⟩

/-! ## Claim C4 -/

/-- Counterexample for C4 as stated: the single-character id "é" (U+00E9) is
accepted by `validate_msg_id` — Rust `char::is_alphanumeric` covers Unicode
alphanumerics — although it is not in the claimed class `[A-Za-z0-9_-]`. -/
theorem validate_msg_id_accepts_beyond_ascii :
    Guards.validate_msg_id (String.mk [Char.ofNat 233]) = .ok ()
    ∧ claimedAsciiClass (Char.ofNat 233) = false := by
  decide

/-- C4 (amended): for strings over the modelled range (code points ≤ U+00FF),
validation accepts exactly the non-empty ids of UTF-8 byte length at most 64
all of whose characters are Unicode-alphanumeric (Rust `char::is_alphanumeric`)
or '_' or '-'; an empty or over-long id yields "Invalid msg_id format", and an
id passing the length check with any other character yields
"msg_id contains invalid characters". -/
theorem validate_msg_id_spec (s : String)
    (hrange : ∀ c ∈ s.toList, c.toNat ≤ 255) :
    (Guards.validate_msg_id s = .ok () ↔
      (s.utf8ByteSize ≠ 0 ∧ s.utf8ByteSize ≤ 64 ∧
        ∀ c ∈ s.toList, (rustIsAlphanumeric c || c == '_' || c == '-') = true))
    ∧ (Guards.validate_msg_id s = .error "Invalid msg_id format" ↔
        (s.utf8ByteSize = 0 ∨ 64 < s.utf8ByteSize))
    ∧ (Guards.validate_msg_id s = .error "msg_id contains invalid characters" ↔
        (s.utf8ByteSize ≠ 0 ∧ s.utf8ByteSize ≤ 64 ∧
          ∃ c ∈ s.toList, (rustIsAlphanumeric c || c == '_' || c == '-') = false)) := by
  by_cases h1 : s.utf8ByteSize = 0 ∨ 64 < s.utf8ByteSize
  · refine ⟨?_, ?_, ?_⟩
    · simp only [Guards.validate_msg_id, if_pos h1]
      constructor
      · intro h; exact absurd h (by simp)
      · rintro ⟨hne, hle, _⟩
        rcases h1 with h | h
        · exact absurd h hne
        · omega
    · simp [Guards.validate_msg_id, if_pos h1]
      exact h1
    · simp only [Guards.validate_msg_id, if_pos h1]
      constructor
      · intro h
        exact absurd h (by simp)
      · rintro ⟨hne, hle, _⟩
        rcases h1 with h | h
        · exact absurd h hne
        · omega
  · push_neg at h1
    by_cases h2 : (s.toList.all fun c => rustIsAlphanumeric c || c == '_' || c == '-') = true
    · have hval : Guards.validate_msg_id s = .ok () := by
        unfold Guards.validate_msg_id
        rw [if_neg (by push_neg; exact h1), if_neg (not_not_intro h2)]
      refine ⟨?_, ?_, ?_⟩
      · simp only [hval]
        constructor
        · intro _
          exact ⟨h1.1, h1.2, fun c hc => List.all_eq_true.mp h2 c hc⟩
        · intro _; trivial
      · simp only [hval]
        constructor
        · intro h; exact absurd h (by simp)
        · intro h
          rcases h with h | h
          · exact absurd h h1.1
          · omega
      · simp only [hval]
        constructor
        · intro h; exact absurd h (by simp)
        · rintro ⟨-, -, c, hc, hbad⟩
          have := (List.all_eq_true.mp h2) c hc
          rw [this] at hbad
          exact absurd hbad (by simp)
    · have hval : Guards.validate_msg_id s = .error "msg_id contains invalid characters" := by
        unfold Guards.validate_msg_id
        rw [if_neg (by push_neg; exact h1), if_pos (by simpa using h2)]
      refine ⟨?_, ?_, ?_⟩
      · simp only [hval]
        constructor
        · intro h; exact absurd h (by simp)
        · rintro ⟨-, -, hall⟩
          exact absurd (List.all_eq_true.mpr hall) h2
      · simp only [hval]
        constructor
        · intro h
          have : "msg_id contains invalid characters" = "Invalid msg_id format" := by
            simpa using h
          exact absurd this (by decide)
        · intro h
          rcases h with h | h
          · exact absurd h h1.1
          · omega
      · simp only [hval, true_iff]
        refine ⟨h1.1, h1.2, ?_⟩
        have : ¬ ∀ c ∈ s.toList, (rustIsAlphanumeric c || c == '_' || c == '-') = true := by
          intro hall
          exact h2 (List.all_eq_true.mpr hall)
        push_neg at this
        rcases this with ⟨c, hc, hbad⟩
        exact ⟨c, hc, by simpa using hbad⟩

/-- Witness for C4 (amended) at the concrete id "ab-C_9". -/
theorem validate_msg_id_spec_witness :
    (∀ c ∈ ("ab-C_9" : String).toList, c.toNat ≤ 255) ∧
    (Guards.validate_msg_id "ab-C_9" = .ok () ↔
      (("ab-C_9" : String).utf8ByteSize ≠ 0 ∧ ("ab-C_9" : String).utf8ByteSize ≤ 64 ∧
        ∀ c ∈ ("ab-C_9" : String).toList,
          (rustIsAlphanumeric c || c == '_' || c == '-') = true)) :=
  ⟨by decide, (validate_msg_id_spec "ab-C_9" (by decide)).1⟩

end Ohms

namespace Ohms

/-! ## Claim C2 -/

/-- Each pattern of the fixed table contributes a three-element capability
list, so the accumulated capability list is three entries per matched pattern. -/
theorem capabilities_flatten_length (L : List CapabilityPattern)
    (h : ∀ p ∈ L, p.capabilities.length = 3) :
    ((L.map (fun p => p.capabilities)).flatten).length = 3 * L.length := by
  induction L with
  | nil => simp
  | cons p rest ih =>
    simp only [List.map_cons, List.flatten_cons, List.length_append, List.length_cons,
      h p (List.mem_cons_self p rest), ih (fun q hq => h q (List.mem_cons_of_mem p hq))]
    ring

/-- Counterexample for C2 as stated: the instruction text "code" matches
exactly one pattern (development), so the claimed count is max(1, 1) = 1 with
no bumps, yet the analyzer returns 3 — `determine_agent_count` is fed the
accumulated capability list (three tags per matched pattern), not the number
of matched patterns. -/
theorem agent_count_counterexample :
    (InstructionAnalyzerService.parse_instructions "code").agent_count = 3
    ∧ claimed_agent_count "code" = 1 := by
  decide

/-- C2 (amended): the analyzer's agent count equals
max(1, 3·number_of_matched_patterns) — three capability tags are accumulated
per matched pattern — then is raised to at least 3 if the lowercased text
contains "team" or "multiple", raised to at least 4 if it contains "complex"
or "comprehensive", and finally capped at 10. -/
theorem agent_count_formula (s : String) :
    (InstructionAnalyzerService.parse_instructions s).agent_count =
      (let lowered := rustToLowercase s
       let matched := (InstructionAnalyzerService.get_capability_patterns.filter
          (fun p => InstructionAnalyzerService.matches_pattern lowered p.keywords)).length
       let base := max (3 * matched) 1
       let bumped3 :=
         if containsSub lowered "team" || containsSub lowered "multiple" then max base 3
         else base
       let bumped4 :=
         if containsSub lowered "complex" || containsSub lowered "comprehensive" then
           max bumped3 4
         else bumped3
       min bumped4 10) := by
  have h3 : ∀ p ∈ InstructionAnalyzerService.get_capability_patterns,
      p.capabilities.length = 3 := by decide
  simp only [InstructionAnalyzerService.parse_instructions,
    InstructionAnalyzerService.determine_agent_count]
  rw [capabilities_flatten_length _
    (fun p hp => h3 p (List.mem_of_mem_filter hp))]

end Ohms

namespace Ohms

/-! ## Claim C9 -/

/-- C9: the analyzer's quota check measures remaining agents against
`max_agents` (not the monthly creation limit) and computes availability as
remaining ≥ requested AND used < monthly limit; for a principal with no stored
quota it initializes and persists a Pro-tier quota (max_agents 25, monthly
creations 25, token limit 4096). -/
theorem check_user_quotas_spec :
    (∀ (now : Nat) (p : String) (requested : Nat) (quotas : List (String × UserQuota)),
      (let q := (alookup quotas p).getD
        (InstructionAnalyzerService.defaultProQuota now p)
       (InstructionAnalyzerService.check_user_quotas now p requested quotas).1.remaining_agents =
          q.limits.max_agents - q.current_usage.agents_created_this_month
       ∧ ((InstructionAnalyzerService.check_user_quotas now p requested quotas).1.quota_available
            = true ↔
          (requested ≤ q.limits.max_agents - q.current_usage.agents_created_this_month
           ∧ q.current_usage.agents_created_this_month < q.limits.monthly_agent_creations))))
    ∧ (∀ (now : Nat) (p : String) (requested : Nat) (quotas : List (String × UserQuota)),
        alookup quotas p = none →
        alookup (InstructionAnalyzerService.check_user_quotas now p requested quotas).2 p =
            some (InstructionAnalyzerService.defaultProQuota now p)
          ∧ (InstructionAnalyzerService.defaultProQuota now p).limits =
              { max_agents := 25, monthly_agent_creations := 25, token_limit := 4096,
                inference_rate := .Priority }
          ∧ (InstructionAnalyzerService.defaultProQuota now p).subscription_tier = "Pro"
          ∧ (InstructionAnalyzerService.check_user_quotas now p requested quotas).1.tier = "Pro"
          ∧ (InstructionAnalyzerService.check_user_quotas now p requested quotas).1.monthly_limit
              = 25
          ∧ (InstructionAnalyzerService.check_user_quotas now p requested quotas).1.remaining_agents
              = 25
          ∧ ((InstructionAnalyzerService.check_user_quotas now p requested quotas).1.quota_available
               = true ↔ requested ≤ 25)) := by
  constructor
  · intro now p requested quotas
    refine ⟨rfl, ?_⟩
    simp [InstructionAnalyzerService.check_user_quotas]
  · intro now p requested quotas hnone
    refine ⟨?_, rfl, rfl, ?_, ?_, ?_, ?_⟩
    · simp [InstructionAnalyzerService.check_user_quotas, hnone, alookup_ainsert_self]
    · simp [InstructionAnalyzerService.check_user_quotas, hnone,
        InstructionAnalyzerService.defaultProQuota]
    · simp [InstructionAnalyzerService.check_user_quotas, hnone,
        InstructionAnalyzerService.defaultProQuota]
    · simp [InstructionAnalyzerService.check_user_quotas, hnone,
        InstructionAnalyzerService.defaultProQuota]
    · simp [InstructionAnalyzerService.check_user_quotas, hnone,
        InstructionAnalyzerService.defaultProQuota]

/-- Witness for C9 on the empty quota map. -/
theorem check_user_quotas_spec_witness :
    alookup (InstructionAnalyzerService.check_user_quotas 5 "p" 4 []).2 "p" =
        some (InstructionAnalyzerService.defaultProQuota 5 "p")
      ∧ ((InstructionAnalyzerService.check_user_quotas 5 "p" 4 []).1.quota_available = true ↔
          (4 : Nat) ≤ 25) :=
  ⟨(check_user_quotas_spec.2 5 "p" 4 [] rfl).1,
   (check_user_quotas_spec.2 5 "p" 4 [] rfl).2.2.2.2.2.2⟩

end Ohms

namespace Ohms

/-! ## Claim C7 -/

/-- C7: agent-creation validation is denied — with reason "Monthly agent
creation limit reached" and 0 remaining agents — exactly when the month's
creations have reached the monthly limit; when `validate_quota` allows an
agent creation it increments the stored usage by one, so after any successful
creation the stored usage is at most the monthly limit. -/
theorem agent_creation_quota_spec :
    (∀ q : UserQuota,
      ((QuotaManager.validate_agent_creation_quota q).allowed = false ↔
        q.limits.monthly_agent_creations ≤ q.current_usage.agents_created_this_month)
      ∧ (q.limits.monthly_agent_creations ≤ q.current_usage.agents_created_this_month →
          (QuotaManager.validate_agent_creation_quota q).reason =
              some "Monthly agent creation limit reached"
            ∧ ∃ r, (QuotaManager.validate_agent_creation_quota q).remaining_quota = some r
                ∧ r.agents_remaining = 0))
    ∧ (∀ (now : Nat) (p : String) (quotas quotas' : List (String × UserQuota))
        (v : QuotaValidation),
        QuotaManager.validate_quota now p .AgentCreation none quotas = (.ok v, quotas') →
        v.allowed = true →
        ∃ stored q', alookup quotas p = some stored
          ∧ alookup quotas' p = some q'
          ∧ q'.current_usage.agents_created_this_month =
              (QuotaManager.reset_monthly_usage_if_needed now
                stored).current_usage.agents_created_this_month + 1
          ∧ q'.current_usage.agents_created_this_month ≤ q'.limits.monthly_agent_creations) := by
  constructor
  · intro q
    constructor
    · unfold QuotaManager.validate_agent_creation_quota
      by_cases h : q.limits.monthly_agent_creations ≤ q.current_usage.agents_created_this_month
      · simp [h]
      · simp [h]
    · intro h
      unfold QuotaManager.validate_agent_creation_quota
      rw [if_pos h]
      exact ⟨rfl, _, rfl, rfl⟩
  · intro now p quotas quotas' v heq hallow
    cases hlk : alookup quotas p with
    | none =>
      have : QuotaManager.validate_quota now p .AgentCreation none quotas =
          (.error "No quota found for user", quotas) := by
        unfold QuotaManager.validate_quota
        rw [hlk]
      rw [this] at heq
      exact absurd (congrArg Prod.fst heq) (by simp)
    | some stored =>
      have hred : QuotaManager.validate_quota now p .AgentCreation none quotas =
          (let q := QuotaManager.reset_monthly_usage_if_needed now stored
           let v2 := QuotaManager.validate_agent_creation_quota q
           if v2.allowed = true then
             (.ok v2, ainsert quotas p (QuotaManager.update_usage now q .AgentCreation none))
           else (.ok v2, quotas)) := by
        unfold QuotaManager.validate_quota
        rw [hlk]
      rw [hred] at heq
      set q := QuotaManager.reset_monthly_usage_if_needed now stored with hqdef
      by_cases hall : (QuotaManager.validate_agent_creation_quota q).allowed = true
      · rw [if_pos hall] at heq
        have hv : QuotaManager.validate_agent_creation_quota q = v := by
          have := congrArg Prod.fst heq
          simpa using this
        have hm : quotas' = ainsert quotas p (QuotaManager.update_usage now q .AgentCreation none) := by
          have := congrArg Prod.snd heq
          simpa using this.symm
        refine ⟨stored, QuotaManager.update_usage now q .AgentCreation none, ?_, ?_, ?_, ?_⟩
        · rfl
        · rw [hm]; exact alookup_ainsert_self _ _ _
        · rfl
        · have hlt : q.current_usage.agents_created_this_month <
              q.limits.monthly_agent_creations := by
            by_contra hge
            push_neg at hge
            have : (QuotaManager.validate_agent_creation_quota q).allowed = false := by
              unfold QuotaManager.validate_agent_creation_quota
              rw [if_pos hge]
            rw [this] at hall
            exact absurd hall (by simp)
          show (QuotaManager.update_usage now q .AgentCreation
              none).current_usage.agents_created_this_month ≤
            (QuotaManager.update_usage now q .AgentCreation none).limits.monthly_agent_creations
          have husage : (QuotaManager.update_usage now q .AgentCreation
              none).current_usage.agents_created_this_month =
              q.current_usage.agents_created_this_month + 1 := rfl
          have hlim : (QuotaManager.update_usage now q .AgentCreation
              none).limits.monthly_agent_creations = q.limits.monthly_agent_creations := rfl
          rw [husage, hlim]
          omega
      · rw [if_neg hall] at heq
        have hv : QuotaManager.validate_agent_creation_quota q = v := by
          have := congrArg Prod.fst heq
          simpa using this
        rw [hv] at hall
        exact absurd hallow hall

end Ohms

namespace Ohms

/-- Witness for C7: a stored Basic-tier quota with 3 of 5 monthly creations
used admits one more creation and ends at 4 ≤ 5. -/
theorem agent_creation_quota_spec_witness :
    ∃ stored q', alookup [("p", exQuota)] "p" = some stored
      ∧ alookup (QuotaManager.validate_quota 60 "p" .AgentCreation none [("p", exQuota)]).2 "p"
          = some q'
      ∧ q'.current_usage.agents_created_this_month =
          (QuotaManager.reset_monthly_usage_if_needed 60
            stored).current_usage.agents_created_this_month + 1
      ∧ q'.current_usage.agents_created_this_month ≤ q'.limits.monthly_agent_creations :=
  agent_creation_quota_spec.2 60 "p" [("p", exQuota)]
    (QuotaManager.validate_quota 60 "p" .AgentCreation none [("p", exQuota)]).2
    (QuotaManager.validate_agent_creation_quota
      (QuotaManager.reset_monthly_usage_if_needed 60 exQuota))
    (by decide) (by decide)

end Ohms

namespace Ohms

/-! ## Claim C5 -/

/-- C5: an expired dedup entry (`ttl_expires_at ≤ now`) is never observed on a
read path: `is_duplicate` first removes every expired entry — the swept cache
holds only live entries — and then reports presence, so it answers true
exactly when a live entry for the id exists; and `get_cached_result` returns
`none` for an expired entry. -/
theorem dedup_expired_never_observed (now : Nat) (msg_id : String)
    (cache : List (String × DedupEntry)) (hnd : KeysNodup cache) :
    (∀ p ∈ (DedupService.is_duplicate now msg_id cache).2, now < p.2.ttl_expires_at)
    ∧ ((DedupService.is_duplicate now msg_id cache).1 = true ↔
        ∃ entry, alookup cache msg_id = some entry ∧ now < entry.ttl_expires_at)
    ∧ (∀ entry, alookup cache msg_id = some entry → entry.ttl_expires_at ≤ now →
        DedupService.get_cached_result now msg_id cache = none) := by
  refine ⟨?_, ?_, ?_⟩
  · intro p hp
    have := List.of_mem_filter hp
    simpa using this
  · simp only [DedupService.is_duplicate, acontains]
    rw [alookup_filter _ _ _ hnd]
    cases hlk : alookup cache msg_id with
    | none => simp
    | some entry =>
      by_cases hlive : now < entry.ttl_expires_at
      · simp [hlive]
      · simp [hlive]
  · intro entry hlk hexp
    unfold DedupService.get_cached_result
    rw [hlk]
    have : ¬ now < entry.ttl_expires_at := by omega
    simp [Option.filter, this]

/-- Witness for C5: at t=10 the expired entry for "r2" (ttl 5) is invisible to
`get_cached_result`, while the live entry for "r1" makes `is_duplicate` true. -/
theorem dedup_expired_never_observed_witness :
    DedupService.get_cached_result 10 "r2" [("r1", exEntry), ("r2", exEntryExpired)] = none
    ∧ (DedupService.is_duplicate 10 "r1" [("r1", exEntry), ("r2", exEntryExpired)]).1 = true :=
  ⟨(dedup_expired_never_observed 10 "r2" [("r1", exEntry), ("r2", exEntryExpired)]
      (by decide)).2.2 exEntryExpired (by decide) (by decide),
   (dedup_expired_never_observed 10 "r1" [("r1", exEntry), ("r2", exEntryExpired)]
      (by decide)).2.1.mpr ⟨exEntry, by decide, by decide⟩⟩

end Ohms

namespace Ohms

/-! ## Claim C6 -/

/-- The indicator sum over the required list counts the required entries
present among the agent's capabilities. -/
theorem sum_indicator_eq_filter_length (l caps : List String) :
    (l.map (fun cap => if cap ∈ caps then (1:ℚ) else 0)).sum =
      ((l.filter (fun cap => decide (cap ∈ caps))).length : ℚ) := by
  induction l with
  | nil => simp
  | cons c rest ih =>
    by_cases hc : c ∈ caps
    · simp [hc, ih]
      ring
    · simp [hc, ih]

/-- C6: the agent score is `0.6·health + 0.4·capability_fit` with
`capability_fit` the fraction of required capability entries the agent offers
(denominator `max(|required|, 1)`); and for fixed required capabilities the
score is monotone under domination: if agent `a` has health at least that of
`b` and a superset of `b`'s capabilities, then `a` scores at least `b`. -/
theorem agent_score_spec :
    (∀ (agent : AgentRegistration) (required : List String),
      RoutingService.calculate_agent_score agent required =
        (6/10) * agent.health_score +
          (4/10) * (((required.filter
              (fun cap => decide (cap ∈ agent.capabilities))).length : ℚ) /
            (max required.length 1 : ℚ)))
    ∧ (∀ (a b : AgentRegistration) (required : List String),
        b.health_score ≤ a.health_score →
        (∀ c ∈ b.capabilities, c ∈ a.capabilities) →
        RoutingService.calculate_agent_score b required ≤
          RoutingService.calculate_agent_score a required) := by
  constructor
  · intro agent required
    unfold RoutingService.calculate_agent_score
    rw [sum_indicator_eq_filter_length]
  · intro a b required hhealth hsub
    have hsum : (required.map (fun cap => if cap ∈ b.capabilities then (1:ℚ) else 0)).sum ≤
        (required.map (fun cap => if cap ∈ a.capabilities then (1:ℚ) else 0)).sum := by
      apply List.sum_le_sum
      intro c hc
      by_cases hcb : c ∈ b.capabilities
      · simp [hcb, hsub c hcb]
      · by_cases hca : c ∈ a.capabilities <;> simp [hcb, hca]
    have hd : (0:ℚ) < (max required.length 1 : ℚ) := by
      have h1 : (1:Nat) ≤ max required.length 1 := Nat.le_max_right _ _
      have : (0:Nat) < max required.length 1 := Nat.lt_of_lt_of_le Nat.zero_lt_one h1
      exact_mod_cast this
    unfold RoutingService.calculate_agent_score
    have h1 : (6/10 : ℚ) * b.health_score ≤ (6/10) * a.health_score :=
      mul_le_mul_of_nonneg_left hhealth (by norm_num)
    have h2 : (4/10 : ℚ) *
        ((required.map (fun cap => if cap ∈ b.capabilities then (1:ℚ) else 0)).sum /
          (max required.length 1 : ℚ)) ≤
        (4/10) *
        ((required.map (fun cap => if cap ∈ a.capabilities then (1:ℚ) else 0)).sum /
          (max required.length 1 : ℚ)) :=
      mul_le_mul_of_nonneg_left ((div_le_div_right hd).mpr hsum) (by norm_num)
    exact add_le_add h1 h2

/-- Witness for C6: `exAgentStrong` dominates `exAgentWeak` (health 1 ≥ 0,
capabilities ⊇), so it scores at least as high on the requirements
["code", "test"]. -/
theorem agent_score_spec_witness :
    RoutingService.calculate_agent_score exAgentWeak ["code", "test"] ≤
      RoutingService.calculate_agent_score exAgentStrong ["code", "test"] :=
  agent_score_spec.2 exAgentStrong exAgentWeak ["code", "test"] (by decide) (by decide)

end Ohms

namespace Ohms

/-! ## Claim C3: properties of the fan-out arbitration loop -/

theorem mem_successIds {t : String × Nat × ℚ}
    {results : List (Except String (String × Nat × ℚ))} (h : .ok t ∈ results) :
    t.1 ∈ successIds results := by
  unfold successIds
  exact List.mem_filterMap.mpr ⟨.ok t, h, rfl⟩

theorem fanout_arbitrate_ids (w : Nat) (results : List (Except String (String × Nat × ℚ))) :
    ∀ best0, (RoutingService.fanout_arbitrate w results best0).2 = successIds results := by
  induction results with
  | nil => intro best0; rfl
  | cons r rs ih =>
    intro best0
    cases r with
    | error e =>
      simp [RoutingService.fanout_arbitrate, successIds, List.filterMap_cons, ih]
    | ok t =>
      obtain ⟨agent_id, elapsed, score⟩ := t
      simp only [RoutingService.fanout_arbitrate, successIds, List.filterMap_cons]
      rw [show (successIds rs = List.filterMap _ rs) from rfl] at ih
      simp [ih]

/-- Full characterization of the accumulator loop: the final best is `none`
exactly when the accumulator started empty and no successful result lies
within the window; and a final best is a within-window success (or the
starting accumulator) whose score dominates every within-window success and
the starting accumulator. -/
theorem fanout_arbitrate_best_spec (w : Nat)
    (results : List (Except String (String × Nat × ℚ))) :
    ∀ best0,
      ((RoutingService.fanout_arbitrate w results best0).1 = none ↔
        (best0 = none ∧ ∀ t, .ok t ∈ results → ¬ t.2.1 ≤ w))
      ∧ (∀ b, (RoutingService.fanout_arbitrate w results best0).1 = some b →
          ((.ok b ∈ results ∧ b.2.1 ≤ w) ∨ best0 = some b)
          ∧ (∀ t, .ok t ∈ results → t.2.1 ≤ w → t.2.2 ≤ b.2.2)
          ∧ (∀ t0, best0 = some t0 → t0.2.2 ≤ b.2.2)) := by
  induction results with
  | nil =>
    intro best0
    constructor
    · simp [RoutingService.fanout_arbitrate]
    · intro b hb
      simp only [RoutingService.fanout_arbitrate] at hb
      refine ⟨Or.inr hb, by simp, ?_⟩
      intro t0 ht0
      rw [hb] at ht0
      cases ht0
      exact le_refl _
  | cons r rs ih =>
    intro best0
    cases r with
    | error e =>
      have harb : (RoutingService.fanout_arbitrate w (.error e :: rs) best0).1 =
          (RoutingService.fanout_arbitrate w rs best0).1 := rfl
      constructor
      · rw [harb, (ih best0).1]
        constructor
        · rintro ⟨h0, hall⟩
          exact ⟨h0, fun t ht => hall t (by
            rcases List.mem_cons.mp ht with h | h
            · exact absurd h (by simp)
            · exact h)⟩
        · rintro ⟨h0, hall⟩
          exact ⟨h0, fun t ht => hall t (List.mem_cons_of_mem _ ht)⟩
      · intro b hb
        rw [harb] at hb
        obtain ⟨hmem, hdom, hacc⟩ := (ih best0).2 b hb
        refine ⟨?_, ?_, hacc⟩
        · rcases hmem with ⟨hin, hle⟩ | h0
          · exact Or.inl ⟨List.mem_cons_of_mem _ hin, hle⟩
          · exact Or.inr h0
        · intro t ht hle
          rcases List.mem_cons.mp ht with h | h
          · exact absurd h (by simp)
          · exact hdom t h hle
    | ok t =>
      obtain ⟨aid, el, sc⟩ := t
      by_cases hel : el ≤ w
      · cases best0 with
        | none =>
          have harb : (RoutingService.fanout_arbitrate w (.ok (aid, el, sc) :: rs) none).1 =
              (RoutingService.fanout_arbitrate w rs (some (aid, el, sc))).1 := by
            simp [RoutingService.fanout_arbitrate, hel]
          constructor
          · rw [harb]
            constructor
            · intro hnone
              have := ((ih (some (aid, el, sc))).1.mp hnone).1
              exact absurd this (by simp)
            · rintro ⟨-, hall⟩
              exact absurd hel (hall (aid, el, sc) (List.mem_cons_self _ _))
          · intro b hb
            rw [harb] at hb
            obtain ⟨hmem, hdom, hacc⟩ := (ih (some (aid, el, sc))).2 b hb
            have hsc : sc ≤ b.2.2 := hacc (aid, el, sc) rfl
            refine ⟨?_, ?_, by simp⟩
            · rcases hmem with ⟨hin, hle⟩ | h0
              · exact Or.inl ⟨List.mem_cons_of_mem _ hin, hle⟩
              · have hab : (aid, el, sc) = b := by injection h0
                subst hab
                exact Or.inl ⟨List.mem_cons_self _ _, hel⟩
            · intro t2 ht2 hle2
              rcases List.mem_cons.mp ht2 with h | h
              · have : t2 = (aid, el, sc) := by
                  injection h with h2
                rw [this]
                exact hsc
              · exact hdom t2 h hle2
        | some b0 =>
          obtain ⟨bid, bel, bsc⟩ := b0
          by_cases hcmp : bsc < sc
          · have harb : (RoutingService.fanout_arbitrate w
                (.ok (aid, el, sc) :: rs) (some (bid, bel, bsc))).1 =
                (RoutingService.fanout_arbitrate w rs (some (aid, el, sc))).1 := by
              simp [RoutingService.fanout_arbitrate, hel, hcmp]
            constructor
            · rw [harb]
              constructor
              · intro hnone
                have := ((ih (some (aid, el, sc))).1.mp hnone).1
                exact absurd this (by simp)
              · rintro ⟨h0, -⟩
                exact absurd h0 (by simp)
            · intro b hb
              rw [harb] at hb
              obtain ⟨hmem, hdom, hacc⟩ := (ih (some (aid, el, sc))).2 b hb
              have hsc : sc ≤ b.2.2 := hacc (aid, el, sc) rfl
              refine ⟨?_, ?_, ?_⟩
              · rcases hmem with ⟨hin, hle⟩ | h0
                · exact Or.inl ⟨List.mem_cons_of_mem _ hin, hle⟩
                · have hab : (aid, el, sc) = b := by injection h0
                  subst hab
                  exact Or.inl ⟨List.mem_cons_self _ _, hel⟩
              · intro t2 ht2 hle2
                rcases List.mem_cons.mp ht2 with h | h
                · have : t2 = (aid, el, sc) := by injection h with h2
                  rw [this]
                  exact hsc
                · exact hdom t2 h hle2
              · intro t0 ht0
                injection ht0 with h2
                rw [← h2]
                exact le_of_lt (lt_of_lt_of_le hcmp hsc)
          · have harb : (RoutingService.fanout_arbitrate w
                (.ok (aid, el, sc) :: rs) (some (bid, bel, bsc))).1 =
                (RoutingService.fanout_arbitrate w rs (some (bid, bel, bsc))).1 := by
              simp [RoutingService.fanout_arbitrate, hel, hcmp]
            have hscb : sc ≤ bsc := le_of_not_lt hcmp
            constructor
            · rw [harb]
              constructor
              · intro hnone
                have := ((ih (some (bid, bel, bsc))).1.mp hnone).1
                exact absurd this (by simp)
              · rintro ⟨h0, -⟩
                exact absurd h0 (by simp)
            · intro b hb
              rw [harb] at hb
              obtain ⟨hmem, hdom, hacc⟩ := (ih (some (bid, bel, bsc))).2 b hb
              have hbsc : bsc ≤ b.2.2 := hacc (bid, bel, bsc) rfl
              refine ⟨?_, ?_, ?_⟩
              · rcases hmem with ⟨hin, hle⟩ | h0
                · exact Or.inl ⟨List.mem_cons_of_mem _ hin, hle⟩
                · exact Or.inr h0
              · intro t2 ht2 hle2
                rcases List.mem_cons.mp ht2 with h | h
                · have : t2 = (aid, el, sc) := by injection h with h2
                  rw [this]
                  exact le_trans hscb hbsc
                · exact hdom t2 h hle2
              · intro t0 ht0
                injection ht0 with h2
                rw [← h2]
                exact hbsc
      · have harb : (RoutingService.fanout_arbitrate w (.ok (aid, el, sc) :: rs) best0).1 =
            (RoutingService.fanout_arbitrate w rs best0).1 := by
          simp [RoutingService.fanout_arbitrate, hel]
        constructor
        · rw [harb, (ih best0).1]
          constructor
          · rintro ⟨h0, hall⟩
            refine ⟨h0, fun t ht => ?_⟩
            rcases List.mem_cons.mp ht with h | h
            · have : t = (aid, el, sc) := by injection h with h2
              rw [this]
              exact hel
            · exact hall t h
          · rintro ⟨h0, hall⟩
            exact ⟨h0, fun t ht => hall t (List.mem_cons_of_mem _ ht)⟩
        · intro b hb
          rw [harb] at hb
          obtain ⟨hmem, hdom, hacc⟩ := (ih best0).2 b hb
          refine ⟨?_, ?_, hacc⟩
          · rcases hmem with ⟨hin, hle⟩ | h0
            · exact Or.inl ⟨List.mem_cons_of_mem _ hin, hle⟩
            · exact Or.inr h0
          · intro t2 ht2 hle2
            rcases List.mem_cons.mp ht2 with h | h
            · have : t2 = (aid, el, sc) := by injection h with h2
              rw [this] at hle2
              exact absurd hle2 hel
            · exact hdom t2 h hle2

end Ohms

namespace Ohms

theorem reorderWinnerFirst_perm (winner : String) (ids : List String) :
    (RoutingService.reorderWinnerFirst winner ids).Perm ids := by
  unfold RoutingService.reorderWinnerFirst
  have hcongr : ids.filter (fun id => decide (id ≠ winner)) =
      ids.filter (fun id => !(decide (id = winner))) := by
    apply List.filter_congr
    intro x _
    simp [decide_not]
  rw [hcongr]
  exact List.filter_append_perm _ ids

theorem reorderWinnerFirst_head (winner : String) (ids : List String)
    (h : winner ∈ ids) :
    (RoutingService.reorderWinnerFirst winner ids).head? = some winner := by
  unfold RoutingService.reorderWinnerFirst
  cases hfe : ids.filter (fun id => decide (id = winner)) with
  | nil =>
    have : winner ∈ ids.filter (fun id => decide (id = winner)) :=
      List.mem_filter.mpr ⟨h, by simp⟩
    rw [hfe] at this
    exact absurd this (by simp)
  | cons x xs =>
    have hx : x ∈ ids.filter (fun id => decide (id = winner)) := by
      rw [hfe]; exact List.mem_cons_self _ _
    have hxw : x = winner := by
      have := List.of_mem_filter hx
      simpa using this
    rw [hxw]
    rfl

theorem select_multiple_agents_length (capabilities : List String) (k : Nat)
    (s : CoordinatorState) (agents : List AgentRegistration)
    (h : RoutingService.select_multiple_agents capabilities k s = .ok agents) :
    agents.length ≤ k := by
  unfold RoutingService.select_multiple_agents at h
  cases hc : RoutingService.get_capable_agents capabilities s with
  | nil => rw [hc] at h; exact absurd h (by simp)
  | cons c cs =>
    rw [hc] at h
    have : (RoutingService.sortByScoreDesc capabilities (c :: cs)).take k = agents := by
      injection h
    rw [← this]
    calc ((RoutingService.sortByScoreDesc capabilities (c :: cs)).take k).length
        = min k (RoutingService.sortByScoreDesc capabilities (c :: cs)).length :=
          List.length_take _ _
      _ ≤ k := Nat.min_le_left _ _

theorem successIds_length_le (results : List (Except String (String × Nat × ℚ))) :
    (successIds results).length ≤ results.length :=
  List.length_filterMap_le _ _

end Ohms

namespace Ohms


/-- C3: in fan-out-best routing, `k` is capped at 3: at most `min k 3` agents
are dispatched, so at most that many ids are returned. On success the
returned `selected_agents` are a permutation of the successfully responding
agent ids (failed calls are excluded); the winner, when one exists, is a
within-window success of maximal score among the within-window successes and
is placed first in `selected_agents`; when no in-window success exists there
is no winner and the successful ids are returned in dispatch order. Failed
calls never abort the operation: whenever selection succeeds with a non-empty
agent list, the call returns `Ok`. -/
theorem fanout_best_result_spec :
    (∀ (t0 t1 : Nat) (hashR : RouteResponse → String)
        (oracle : AgentRegistration → Except String (AInferenceResponse × Nat))
        (request : RouteRequest) (k window_ms : Nat) (s : CoordinatorState)
        (resp : RouteResponse) (s' : CoordinatorState),
      RoutingService.fanout_best_result t0 t1 hashR oracle request k window_ms s =
          (.ok resp, s') →
      resp.selected_agents.length ≤ min k 3
      ∧ ∃ agents,
          RoutingService.select_multiple_agents request.capabilities_required (min k 3) s =
            .ok agents
          ∧ agents ≠ []
          ∧ resp.selected_agents.Perm
              (successIds (agents.map (RoutingService.fanout_branch oracle)))
          ∧ (∀ b, (RoutingService.fanout_arbitrate window_ms
                (agents.map (RoutingService.fanout_branch oracle)) none).1 = some b →
              .ok b ∈ agents.map (RoutingService.fanout_branch oracle)
                ∧ b.2.1 ≤ window_ms
                ∧ (∀ t, .ok t ∈ agents.map (RoutingService.fanout_branch oracle) →
                    t.2.1 ≤ window_ms → t.2.2 ≤ b.2.2)
                ∧ resp.selected_agents.head? = some b.1)
          ∧ ((RoutingService.fanout_arbitrate window_ms
                (agents.map (RoutingService.fanout_branch oracle)) none).1 = none →
              (∀ t, .ok t ∈ agents.map (RoutingService.fanout_branch oracle) →
                ¬ t.2.1 ≤ window_ms)
              ∧ resp.selected_agents =
                  successIds (agents.map (RoutingService.fanout_branch oracle))))
    ∧ (∀ (t0 t1 : Nat) (hashR : RouteResponse → String)
        (oracle : AgentRegistration → Except String (AInferenceResponse × Nat))
        (request : RouteRequest) (k window_ms : Nat) (s : CoordinatorState)
        (agents : List AgentRegistration),
        RoutingService.select_multiple_agents request.capabilities_required (min k 3) s =
          .ok agents →
        agents ≠ [] →
        ∃ resp s',
          RoutingService.fanout_best_result t0 t1 hashR oracle request k window_ms s =
            (.ok resp, s')) := by
  constructor
  · intro t0 t1 hashR oracle request k window_ms s resp s' h
    unfold RoutingService.fanout_best_result at h
    cases hsel : RoutingService.select_multiple_agents request.capabilities_required
        (min k 3) s with
    | error e =>
      simp only [hsel] at h
      exact absurd (congrArg Prod.fst h) (by simp)
    | ok agents =>
      simp only [hsel] at h
      by_cases hemp : agents.isEmpty
      · rw [if_pos hemp] at h
        exact absurd (congrArg Prod.fst h) (by simp)
      · rw [if_neg hemp] at h
        have hne : agents ≠ [] := by
          intro hnil
          rw [hnil] at hemp
          exact hemp rfl
        have h1 := congrArg Prod.fst h
        simp only [Prod.fst] at h1
        have hresp := (Except.ok.inj h1).symm
        have hids : (RoutingService.fanout_arbitrate window_ms
            (agents.map (RoutingService.fanout_branch oracle)) none).2 =
            successIds (agents.map (RoutingService.fanout_branch oracle)) :=
          fanout_arbitrate_ids window_ms _ none
        have hlen_ids : (successIds (agents.map (RoutingService.fanout_branch oracle))).length
            ≤ min k 3 := by
          calc (successIds (agents.map (RoutingService.fanout_branch oracle))).length
              ≤ (agents.map (RoutingService.fanout_branch oracle)).length :=
                successIds_length_le _
            _ = agents.length := List.length_map _ _
            _ ≤ min k 3 := select_multiple_agents_length _ _ _ _ hsel
        have hperm : resp.selected_agents.Perm
            (successIds (agents.map (RoutingService.fanout_branch oracle))) := by
          rw [hresp]
          cases hbest : (RoutingService.fanout_arbitrate window_ms
              (agents.map (RoutingService.fanout_branch oracle)) none).1 with
          | none =>
            simp only [hbest, hids]
            exact List.Perm.refl _
          | some b =>
            obtain ⟨bid, bel, bsc⟩ := b
            simp only [hbest, hids]
            exact reorderWinnerFirst_perm bid _
        refine ⟨?_, agents, rfl, hne, hperm, ?_, ?_⟩
        · rw [hperm.length_eq]
          exact hlen_ids
        · intro b hb
          obtain ⟨hmem, hdom, -⟩ :=
            ((fanout_arbitrate_best_spec window_ms
              (agents.map (RoutingService.fanout_branch oracle))) none).2 b hb
          have hmem2 : .ok b ∈ agents.map (RoutingService.fanout_branch oracle) ∧
              b.2.1 ≤ window_ms := by
            rcases hmem with hm | hcontra
            · exact hm
            · exact absurd hcontra (by simp)
          refine ⟨hmem2.1, hmem2.2, hdom, ?_⟩
          have hbmem : b.1 ∈ (RoutingService.fanout_arbitrate window_ms
              (agents.map (RoutingService.fanout_branch oracle)) none).2 := by
            rw [hids]
            exact mem_successIds hmem2.1
          rw [hresp]
          obtain ⟨bid, bel, bsc⟩ := b
          simp only [hb]
          exact reorderWinnerFirst_head bid _ hbmem
        · intro hnone
          obtain ⟨-, hall⟩ :=
            ((fanout_arbitrate_best_spec window_ms
              (agents.map (RoutingService.fanout_branch oracle))) none).1.mp hnone
          refine ⟨hall, ?_⟩
          rw [hresp]
          simp only [hnone, hids]
  · intro t0 t1 hashR oracle request k window_ms s agents hsel hne
    have hemp : agents.isEmpty = false := by
      cases agents with
      | nil => exact absurd rfl hne
      | cons a rest => rfl
    cases hout : RoutingService.fanout_best_result t0 t1 hashR oracle request k window_ms s with
    | mk fst snd =>
      cases fst with
      | ok r => exact ⟨r, snd, rfl⟩
      | error e =>
        exfalso
        unfold RoutingService.fanout_best_result at hout
        simp only [hsel] at hout
        rw [if_neg (by simp [hemp])] at hout
        exact absurd (congrArg Prod.fst hout) (by simp)

end Ohms

namespace Ohms

/-- Witness for C3: a concrete fan-out over one agent returns its id first
(the sole within-window success wins), and selection success implies the
operation returns `Ok`. -/
theorem fanout_best_result_spec_witness :
    (RouteResponse.mk "r1" ["a1"] 10
        "fanout_top_k=2 window_ms=100 winner=a1").selected_agents.length ≤ min 2 3
    ∧ ∃ resp s', RoutingService.fanout_best_result 10 20 exHash exOracle exReq 2 100
        exStateFresh = (.ok resp, s') :=
  ⟨(fanout_best_result_spec.1 10 20 exHash exOracle exReq 2 100 exStateFresh
      (RouteResponse.mk "r1" ["a1"] 10 "fanout_top_k=2 window_ms=100 winner=a1")
      { exStateFresh with dedup_cache :=
          (DedupService.record_request exHash 20 "r1"
            (RouteResponse.mk "r1" ["a1"] 10 "fanout_top_k=2 window_ms=100 winner=a1") []) }
      (by with_unfolding_all rfl)).1,
   fanout_best_result_spec.2 10 20 exHash exOracle exReq 2 100 exStateFresh [exAgent]
      (by with_unfolding_all rfl) (by decide)⟩

end Ohms

namespace Ohms

/-! ## Claim C1 -/

/-- A duplicate (live) dedup entry makes `route_request` fail before anything
else happens: the result is the duplicate error and the only state change is
the expiry sweep performed by the dedup check itself — no agent selection
outcome, no dedup record, no metrics update. -/
theorem route_request_duplicate_rejected (t0 t1 : Nat)
    (hashR : RouteResponse → String) (req : RouteRequest) (s : CoordinatorState)
    (entry : DedupEntry) (hnd : KeysNodup s.dedup_cache)
    (hlk : alookup s.dedup_cache req.request_id = some entry)
    (hlive : t0 < entry.ttl_expires_at) :
    RoutingService.route_request t0 t1 hashR req s =
      (.error "Duplicate request ID",
       { s with dedup_cache :=
           s.dedup_cache.filter (fun p => t0 < p.2.ttl_expires_at) }) := by
  have hdup : (DedupService.is_duplicate t0 req.request_id s.dedup_cache).1 = true :=
    (dedup_expired_never_observed t0 req.request_id s.dedup_cache hnd).2.1.mpr
      ⟨entry, hlk, hlive⟩
  unfold RoutingService.route_request
  simp only [hdup, if_true]
  rfl

/-- Inversion of a successful `route_request`: the final dedup cache is the
swept cache extended with a record for the request id whose TTL expires at
`t1 + TTL_DURATION`. -/
theorem route_request_ok_dedup (t0 t1 : Nat) (hashR : RouteResponse → String)
    (req : RouteRequest) (s : CoordinatorState) (resp : RouteResponse)
    (s1 : CoordinatorState)
    (hok : RoutingService.route_request t0 t1 hashR req s = (.ok resp, s1)) :
    s1.dedup_cache =
      DedupService.record_request hashR t1 req.request_id resp
        (s.dedup_cache.filter (fun p => t0 < p.2.ttl_expires_at)) := by
  unfold RoutingService.route_request at hok
  by_cases hdup : (DedupService.is_duplicate t0 req.request_id s.dedup_cache).1
  · simp only [hdup, if_true] at hok
    exact absurd (congrArg Prod.fst hok) (by simp)
  · simp only [hdup, if_false, Bool.false_eq_true] at hok
    cases hsel : RoutingService.route_selection req.routing_mode req.capabilities_required
        { s with dedup_cache := (DedupService.is_duplicate t0 req.request_id s.dedup_cache).2 }
        with
    | error e =>
      rw [hsel] at hok
      exact absurd (congrArg Prod.fst hok) (by simp)
    | ok sel =>
      rw [hsel] at hok
      have h1 := congrArg Prod.fst hok
      have h2 := congrArg Prod.snd hok
      dsimp only at h1 h2
      have hresp := Except.ok.inj h1
      rw [← h2, ← hresp]
      rfl

/-- A selection error from `select_multiple_agents` carries the
no-capable-agents message. -/
theorem select_multiple_agents_error (capabilities : List String) (k : Nat)
    (s : CoordinatorState) (e : String)
    (h : RoutingService.select_multiple_agents capabilities k s = .error e) :
    e = "No agents available with required capabilities" := by
  unfold RoutingService.select_multiple_agents at h
  cases hc : RoutingService.get_capable_agents capabilities s with
  | nil =>
    rw [hc] at h
    exact (Except.error.inj h).symm
  | cons c cs =>
    rw [hc] at h
    exact absurd h (by simp)

/-- C1 (amended): at-most-once admission holds on the `route_request` path
only. (1) With a live dedup entry for the request id, `route_request` returns
"Duplicate request ID" and the only state change is the expiry sweep — dedup
admission precedes selection, recording and metrics. (2) After a successful
`route_request`, any further `route_request` with the same request id within
the 24-hour TTL window returns "Duplicate request ID". (3) The fan-out path
(`route_best_result`) performs no dedup admission check at all: it can never
return "Duplicate request ID" — a duplicate id is simply reprocessed. -/
theorem at_most_once_admission_spec :
    (∀ (t0 t1 : Nat) (hashR : RouteResponse → String) (req : RouteRequest)
        (s : CoordinatorState) (entry : DedupEntry),
      KeysNodup s.dedup_cache →
      alookup s.dedup_cache req.request_id = some entry →
      t0 < entry.ttl_expires_at →
      RoutingService.route_request t0 t1 hashR req s =
        (.error "Duplicate request ID",
         { s with dedup_cache :=
             s.dedup_cache.filter (fun p => t0 < p.2.ttl_expires_at) }))
    ∧ (∀ (t0 t1 t2 t3 : Nat) (hashR hashR2 : RouteResponse → String)
        (req req2 : RouteRequest) (s : CoordinatorState) (resp : RouteResponse)
        (s1 : CoordinatorState),
        KeysNodup s.dedup_cache →
        RoutingService.route_request t0 t1 hashR req s = (.ok resp, s1) →
        req2.request_id = req.request_id →
        t2 < t1 + DedupService.TTL_DURATION →
        (RoutingService.route_request t2 t3 hashR2 req2 s1).1 =
          .error "Duplicate request ID")
    ∧ (∀ (t0 t1 : Nat) (hashR : RouteResponse → String)
        (oracle : AgentRegistration → Except String (AInferenceResponse × Nat))
        (req : RouteRequest) (k w : Nat) (s : CoordinatorState),
        (RoutingService.fanout_best_result t0 t1 hashR oracle req k w s).1 ≠
          .error "Duplicate request ID") := by
  refine ⟨route_request_duplicate_rejected, ?_, ?_⟩
  · intro t0 t1 t2 t3 hashR hashR2 req req2 s resp s1 hnd hok hid hwin
    have hcache := route_request_ok_dedup t0 t1 hashR req s resp s1 hok
    have hnd1 : KeysNodup s1.dedup_cache := by
      rw [hcache]
      exact keysNodup_ainsert _ _ _
        (keysNodup_filter _ _ hnd)
    have hlk : alookup s1.dedup_cache req2.request_id = some
        { msg_id := req.request_id, processed_at := t1, result_hash := hashR resp,
          ttl_expires_at := t1 + DedupService.TTL_DURATION } := by
      rw [hcache, hid]
      exact alookup_ainsert_self _ _ _
    have hrej := route_request_duplicate_rejected t2 t3 hashR2 req2 s1 _ hnd1 hlk hwin
    rw [hrej]
  · intro t0 t1 hashR oracle req k w s hcontra
    unfold RoutingService.fanout_best_result at hcontra
    cases hsel : RoutingService.select_multiple_agents req.capabilities_required (min k 3) s
        with
    | error e =>
      simp only [hsel] at hcontra
      have he := select_multiple_agents_error _ _ _ _ hsel
      have hd : e = "Duplicate request ID" := Except.error.inj hcontra
      rw [he] at hd
      exact absurd hd (by decide)
    | ok agents =>
      simp only [hsel] at hcontra
      by_cases hemp : agents.isEmpty
      · rw [if_pos hemp] at hcontra
        have hd : "No agents available" = "Duplicate request ID" :=
          Except.error.inj hcontra
        exact absurd hd (by decide)
      · rw [if_neg hemp] at hcontra
        exact absurd hcontra (by simp)

/-- Counterexample for C1 as stated: `exState` holds a live (non-expired)
dedup entry for request id "r1", yet the fan-out path does not return
"Duplicate request ID" — it selects agent a1, dispatches the inference call
and returns its id as the winner. -/
theorem fanout_reprocesses_duplicate :
    alookup exState.dedup_cache "r1" = some exEntry
    ∧ (10 : Nat) < exEntry.ttl_expires_at
    ∧ (RoutingService.fanout_best_result 10 20 exHash exOracle exReq 2 100 exState).1 =
        .ok (RouteResponse.mk "r1" ["a1"] 10 "fanout_top_k=2 window_ms=100 winner=a1") :=
  ⟨by decide, by decide, by with_unfolding_all rfl⟩

/-- Witness for C1 (amended): the live entry for "r1" in `exState` makes a
`route_request` for "r1" fail with the duplicate error, leaving only the
sweep behind; and after a fresh successful `route_request` at t=0 a repeat
call at t=5 is rejected. -/
theorem at_most_once_admission_spec_witness :
    RoutingService.route_request 10 10 exHash exReq exState =
      (.error "Duplicate request ID",
       { exState with dedup_cache :=
           (exState.dedup_cache.filter (fun p => 10 < p.2.ttl_expires_at)) })
    ∧ (RoutingService.route_request 5 5 exHash exReq
        { exStateFresh with
            dedup_cache :=
              (DedupService.record_request exHash 0 "r1"
                (RouteResponse.mk "r1" ["a1"] 0 "Selected by Unicast routing") [])
            metrics := CoordinatorMetrics.mk 1 0 0 0 0 }).1 =
      .error "Duplicate request ID" :=
  ⟨at_most_once_admission_spec.1 10 10 exHash exReq exState exEntry
      (by decide) (by decide) (by decide),
   at_most_once_admission_spec.2.1 0 0 5 5 exHash exHash exReq exReq exStateFresh
      (RouteResponse.mk "r1" ["a1"] 0 "Selected by Unicast routing")
      { exStateFresh with
          dedup_cache :=
            (DedupService.record_request exHash 0 "r1"
              (RouteResponse.mk "r1" ["a1"] 0 "Selected by Unicast routing") [])
          metrics := CoordinatorMetrics.mk 1 0 0 0 0 }
      (by decide) (by with_unfolding_all rfl) rfl (by decide)⟩

end Ohms
